import Mathlib

/-!
Teldrive file I/O engine: `services/file.service.go` and `services/upload.service.go`.

A shallow embedding of the HTTP handlers `FileService.GetFileStream`,
`FileService.CopyFile` and `UploadService.UploadFile`.

Conventions of the embedding.

* A Go `error` is the `String` that `err.Error()` returns.
* Go `int64` values are `Int`s; arithmetic on them goes through `wrapInt64`.
* Everything a handler obtains from outside its own body (the request, the session store,
  the metadata cache, the index store, the third-party range parser, the worker pools and
  the chat-platform API) is a field of an environment record.  A field that is a function
  gives the answer the collaborator returns for the arguments the handler passes.
* A handler returns what it leaves behind: the response writer, the calls it made, and
  whether it ended in a Go run-time panic (nil dereference, failed type assertion, index
  out of range).
-/

set_option linter.dupNamespace false

namespace Teldrive

/-! ## Integers and strings -/

/-- Two's-complement wrap of an integer into the range of a Go `int64`. -/
def wrapInt64 (x : Int) : Int := (x + 2 ^ 63) % 2 ^ 64 - 2 ^ 63

/-- Membership in the range of a Go `int64`. -/
def isInt64 (x : Int) : Prop := -(2 ^ 63) ≤ x ∧ x < 2 ^ 63

instance (x : Int) : Decidable (isInt64 x) := by unfold isInt64; infer_instance

/-- Decimal rendering: `strconv.FormatInt(x, 10)` and the verb `%d` of `fmt.Sprintf`. -/
def FormatInt (x : Int) : String :=
  if x < 0 then "-" ++ Nat.repr x.natAbs else Nat.repr x.natAbs

/-- The first field of a colon-separated string: `strings.Split(s, ":")[0]`. -/
def splitFirst (s : String) : String :=
  String.mk (s.data.takeWhile fun c => c != ':')

/-- UTF-8 bytes of a string, as written to a response body. -/
def utf8 (s : String) : List UInt8 := s.data.flatMap String.utf8EncodeChar

/-! ## Data model -/

/-- Go type `models.Part`: one element of a file's part list. -/
structure models.Part where
  ID : Int
deriving DecidableEq, Repr

/-- Go type `models.File`: a row of the index. -/
structure models.File where
  ID : String
  Name : String
  Type_ : String
  MimeType : String
  Size : Int
  Starred : Option Bool
  Status : String
  UserID : Int
  ParentID : String
  ChannelID : Option Int
  Parts : Option (List models.Part)
  UpdatedAt : Int
deriving DecidableEq, Repr

/-- Go type `schemas.FileOutFull`, with the fields `GetFileStream` reads. -/
structure schemas.FileOutFull where
  ID : String
  Name : String
  MimeType : String
  Size : Int
  UpdatedAt : Int
  ChannelID : Option Int
  Parts : Option (List models.Part)
deriving DecidableEq, Repr

/-- Session record returned by `GetSessionByHash`. -/
structure Session where
  UserId : Int
  Session : String
deriving DecidableEq, Repr

/-- Go type `range_parser.Range`. -/
structure Range where
  Start : Int
  End : Int
deriving DecidableEq, Repr

/-- The options of `utils.GetConfig()` that the download path reads. -/
structure Config where
  LazyStreamBots : Bool
  DisableStreamBots : Bool
  BgBotsLimit : Int
deriving DecidableEq, Repr

/-- A chat-platform client, told apart by the credential it was built from
(`tgc.UserLogin(c, session)` or `tgc.BotLogin(c, token)`). -/
inductive telegram.Client where
  | user (session : String)
  | bot (token : String)
deriving DecidableEq, Repr

/-- Go type `tgc.Client`: a stream worker holding a client. -/
structure tgc.Client where
  Tg : telegram.Client
deriving DecidableEq, Repr

/-- Go type `types.Part`: a part with the size read from its remote message. -/
structure types.Part where
  ID : Int
  Size : Int
deriving DecidableEq, Repr

/-! ## The gin response writer -/

/-- State of gin's `ResponseWriter`: the header map (in insertion order), the recorded
status, whether the header block has gone out, and the body bytes written. -/
structure ResponseWriter where
  header : List (String × String)
  status : Int
  written : Bool
  body : List UInt8
deriving DecidableEq, Repr

/-- Go `Header().Set(k, v)`. -/
def headerSet : List (String × String) → String → String → List (String × String)
  | [], k, v => [(k, v)]
  | (k', v') :: t, k, v => if k' = k then (k, v) :: t else (k', v') :: headerSet t k v

/-- Go `Header().Del(k)`. -/
def headerDel (h : List (String × String)) (k : String) : List (String × String) :=
  h.filter fun e => e.1 != k

/-- Go `Header().Get(k)` on a map that `headerSet` built (`none` when the key is absent). -/
def headerGet : List (String × String) → String → Option String
  | [], _ => none
  | (k', v') :: t, k => if k' = k then some v' else headerGet t k

/-- The header names present. -/
def headerNames (h : List (String × String)) : List String := h.map fun e => e.1

/-- A fresh writer: no header, status 200, nothing written. -/
def ResponseWriter.new : ResponseWriter :=
  { header := [], status := 200, written := false, body := [] }

/-- gin's `WriteHeader`: records the code, unless the header block has already gone out. -/
def ResponseWriter.WriteHeader (w : ResponseWriter) (code : Int) : ResponseWriter :=
  if code > 0 ∧ w.status ≠ code then
    if w.written then w else { w with status := code }
  else w

/-- gin's `Write`: sends the header block if needed, then the bytes. -/
def ResponseWriter.Write (w : ResponseWriter) (data : List UInt8) : ResponseWriter :=
  { w with written := true, body := w.body ++ data }

/-- gin's `c.Header(key, value)`: an empty value deletes the key. -/
def ctxHeader (w : ResponseWriter) (key value : String) : ResponseWriter :=
  if value = "" then { w with header := headerDel w.header key }
  else { w with header := headerSet w.header key value }

/-- Go's `http.Error(w, msg, code)`. -/
def httpError (w : ResponseWriter) (msg : String) (code : Int) : ResponseWriter :=
  let h := headerSet w.header "Content-Type" "text/plain; charset=utf-8"
  let h := headerSet h "X-Content-Type-Options" "nosniff"
  let w := { w with header := h }
  let w := w.WriteHeader code
  w.Write (utf8 (msg ++ "\n"))

/-- Go's `io.CopyN(w, lr, n)`: at most `n` bytes of the reader reach the writer; nothing
is written when there is no byte to copy. -/
def ioCopyN (w : ResponseWriter) (src : List UInt8) (n : Int) : ResponseWriter :=
  match src.take n.toNat with
  | [] => w
  | b :: bs => w.Write (b :: bs)

/-! ## `GetFileStream` -/

/-- The request as `GetFileStream` reads it. -/
structure Request where
  Method : String
  fileID : String
  hash : String
  d : String
  Range : String
deriving DecidableEq, Repr

/-- The calls to the worker pools, the chat-platform clients and the part reader that
`GetFileStream` makes, in order. -/
inductive Call where
  | WorkersSet (tokens : List String) (channelId : Int)
  | WorkersNext (channelId : Int)
  | BotLogin (token : String)
  | UserLogin (session : String)
  | RunWithAuth (client : telegram.Client) (token : String)
  | UserWorker (client : telegram.Client)
  | StreamWorkersSet (tokens : List String) (channelId : Int)
  | StreamWorkersNext (channelId : Int)
  | getParts (client : telegram.Client) (channelUser : String)
  | rangedParts (start finish : Int)
  | NewLinearReader (client : telegram.Client) (contentLength : Int)
  | CopyN (contentLength : Int)
deriving DecidableEq, Repr

/-- Collaborators of `GetFileStream`. -/
structure StreamEnv where
  /-- Go `GetSessionByHash(hash)`. -/
  GetSessionByHash : String → Except String Session
  /-- Go `cache.GetCache().Get(key, file)`: the cached file, `none` on a miss. -/
  cacheGet : String → Option schemas.FileOutFull
  /-- The rows `Where("id = ?", fileID).Find(&file)` yields. -/
  dbFind : String → List models.File
  /-- Go `mapper.MapFileToFileOutFull`. -/
  MapFileToFileOutFull : models.File → schemas.FileOutFull
  /-- Go `range_parser.Parse(size, header)` of the third-party range parser. -/
  rangeParse : Int → String → Except String (List Range)
  /-- Go `md5.FromString`. -/
  md5FromString : String → String
  /-- Go `t.UTC().Format(http.TimeFormat)`. -/
  formatHTTPTime : Int → String
  /-- Go `GetBotsToken(c, userId, channelId)`. -/
  GetBotsToken : Int → Int → Except String (List String)
  /-- Go `utils.GetConfig()`. -/
  config : Config
  /-- Go `tgc.Workers.Next(channelId)` after `tgc.Workers.Set(tokens, channelId)`; `none` when
  the call does not return. -/
  WorkersNext : List String → Int → Option String
  /-- The error `tgc.RunWithAuth` returns without running its callback, if any. -/
  RunWithAuth : telegram.Client → String → Option String
  /-- Go `tgc.StreamWorkers.UserWorker(tgClient)`. -/
  UserWorker : telegram.Client → Except String tgc.Client
  /-- Go `tgc.StreamWorkers.Next(channelId)` after `tgc.StreamWorkers.Set(tokens, channelId)`. -/
  StreamWorkersNext : List String → Int → Except String (tgc.Client × Int)
  /-- Go `getParts(c, client, file, channelUser)`. -/
  getParts : telegram.Client → schemas.FileOutFull → String → Except String (List types.Part)
  /-- Go `rangedParts(parts, start, end)`. -/
  rangedParts : List types.Part → Int → Int → List types.Part
  /-- The bytes the reader of `reader.NewLinearReader(c, client, parts, contentLength)`
  delivers. -/
  readerBytes : telegram.Client → List types.Part → Int → List UInt8

/-- What `GetFileStream` leaves behind. -/
structure StreamResult where
  w : ResponseWriter
  calls : List Call
  /-- The `(code, message)` of the `http.Error` the handler answered with, if any. -/
  errorReply : Option (Int × String)
  panicked : Bool
deriving DecidableEq, Repr

/-- A reply through `http.Error`. -/
def StreamResult.fail (w : ResponseWriter) (calls : List Call) (msg : String) (code : Int) :
    StreamResult :=
  { w := httpError w msg code, calls := calls, errorReply := some (code, msg), panicked := false }

/-- Go `FileService.GetFileByID`. -/
def GetFileByID (env : StreamEnv) (fileID : String) : Except String schemas.FileOutFull :=
  match env.dbFind fileID with
  | [] => .error "file not found"
  | f :: _ => .ok (env.MapFileToFileOutFull f)

/-- Lines 490-503: the file from the cache under `files:<id>`, from the index on a miss.
The cache is read through `cacheGet`; the write of line 502 changes later requests only. -/
def loadFile (env : StreamEnv) (fileID : String) : Except String schemas.FileOutFull :=
  match env.cacheGet ("files:" ++ fileID) with
  | some file => .ok file
  | none => GetFileByID env fileID

/-- The ETag value of line 538: `fmt.Sprintf("\"%s\"", md5.FromString(id + FormatInt(size)))`.
-/
def etagValue (md5FromString : String → String) (id : String) (size : Int) : String :=
  "\"" ++ md5FromString (id ++ FormatInt size) ++ "\""

/-- Outcome of lines 507-525. -/
inductive RangeOutcome where
  | window (start finish : Int) (w : ResponseWriter)
  | bad (msg : String)
  | panic
deriving DecidableEq, Repr

/-- Lines 507-525: the byte window and the status, from the `Range` header. -/
def rangeWindow (env : StreamEnv) (file : schemas.FileOutFull) (rangeHeader : String)
    (w : ResponseWriter) : RangeOutcome :=
  if rangeHeader = "" then
    .window 0 (wrapInt64 (file.Size - 1)) (w.WriteHeader 200)
  else
    match env.rangeParse file.Size rangeHeader with
    | .error e => .bad e
    | .ok [] => .panic
    | .ok (r :: _) =>
      let w := ctxHeader w "Content-Range"
        ("bytes " ++ FormatInt r.Start ++ "-" ++ FormatInt r.End ++ "/" ++ FormatInt file.Size)
      .window r.Start r.End (w.WriteHeader 206)

/-- Line 527: `contentLength := end - start + 1`. -/
def contentLengthOf (start finish : Int) : Int :=
  wrapInt64 (wrapInt64 (finish - start) + 1)

/-- Lines 527-547: the entity headers. -/
def setEntityHeaders (env : StreamEnv) (req : Request) (file : schemas.FileOutFull)
    (start finish : Int) (w : ResponseWriter) : ResponseWriter :=
  let contentLength := contentLengthOf start finish
  let mimeType := if file.MimeType = "" then "application/octet-stream" else file.MimeType
  let w := ctxHeader w "Content-Type" mimeType
  let w := ctxHeader w "Content-Length" (FormatInt contentLength)
  let w := ctxHeader w "E-Tag" (etagValue env.md5FromString file.ID file.Size)
  let w := ctxHeader w "Last-Modified" (env.formatHTTPTime file.UpdatedAt)
  let disposition := if req.d = "1" then "attachment" else "inline"
  ctxHeader w "Content-Disposition" (disposition ++ "; filename=\"" ++ file.Name ++ "\"")

/-- Outcome of lines 471-547. -/
inductive Prepared where
  | replied (res : StreamResult)
  | ready (session : Session) (file : schemas.FileOutFull) (start finish : Int)
      (w : ResponseWriter)
deriving DecidableEq, Repr

/-- Lines 471-547: hash check, session, file lookup, byte window and headers. -/
def prepareResponse (env : StreamEnv) (req : Request) : Prepared :=
  let w := ResponseWriter.new
  if req.hash = "" then
    .replied (StreamResult.fail w [] "misssing hash param" 400)
  else
    match env.GetSessionByHash req.hash with
    | .error _ => .replied (StreamResult.fail w [] "invalid hash" 400)
    | .ok session =>
      match loadFile env req.fileID with
      | .error e => .replied (StreamResult.fail w [] e 400)
      | .ok file =>
        let w := ctxHeader w "Accept-Ranges" "bytes"
        match rangeWindow env file req.Range w with
        | .bad e => .replied (StreamResult.fail w [] e 400)
        | .panic => .replied { w := w, calls := [], errorReply := none, panicked := true }
        | .window start finish w =>
          .ready session file start finish (setEntityHeaders env req file start finish w)

/-- Lines 567-573 and 607-614: fetch the parts, keep those of the window, copy
`contentLength` bytes of the linear reader to the response.  The error is that of
`getParts`. -/
def copyParts (env : StreamEnv) (client : telegram.Client) (file : schemas.FileOutFull)
    (channelUser : String) (start finish : Int) (w : ResponseWriter) :
    Except String ResponseWriter × List Call :=
  let contentLength := contentLengthOf start finish
  match env.getParts client file channelUser with
  | .error e => (.error e, [Call.getParts client channelUser])
  | .ok parts =>
    let parts := env.rangedParts parts start finish
    (.ok (ioCopyN w (env.readerBytes client parts contentLength) contentLength),
      [Call.getParts client channelUser, Call.rangedParts start finish,
        Call.NewLinearReader client contentLength, Call.CopyN contentLength])

/-- Lines 560-576: the branch taken when `LazyStreamBots` is set.  The value
`tgc.RunWithAuth` returns is dropped. -/
def lazyStream (env : StreamEnv) (req : Request) (file : schemas.FileOutFull)
    (tokens : List String) (channelID start finish : Int) (w : ResponseWriter) : StreamResult :=
  let calls := [Call.WorkersSet tokens channelID, Call.WorkersNext channelID]
  match env.WorkersNext tokens channelID with
  | none => { w := w, calls := calls, errorReply := none, panicked := true }
  | some token =>
    let client := telegram.Client.bot token
    let channelUser := splitFirst token
    let calls := calls ++ [Call.BotLogin token]
    if req.Method ≠ "HEAD" then
      let calls := calls ++ [Call.RunWithAuth client token]
      match env.RunWithAuth client token with
      | some _ => { w := w, calls := calls, errorReply := none, panicked := false }
      | none =>
        match copyParts env client file channelUser start finish w with
        | (.error _, cs) => { w := w, calls := calls ++ cs, errorReply := none, panicked := false }
        | (.ok w, cs) => { w := w, calls := calls ++ cs, errorReply := none, panicked := false }
    else { w := w, calls := calls, errorReply := none, panicked := false }

/-- Lines 606-615: the body of a request served by a warm worker. -/
def warmBody (env : StreamEnv) (req : Request) (file : schemas.FileOutFull)
    (client : tgc.Client) (channelUser : String) (start finish : Int) (w : ResponseWriter)
    (calls : List Call) : StreamResult :=
  if req.Method ≠ "HEAD" then
    match copyParts env client.Tg file channelUser start finish w with
    | (.error e, cs) => StreamResult.fail w (calls ++ cs) e 500
    | (.ok w, cs) => { w := w, calls := calls ++ cs, errorReply := none, panicked := false }
  else { w := w, calls := calls, errorReply := none, panicked := false }

/-- Lines 578-616: the branch taken when `LazyStreamBots` is not set. -/
def warmStream (env : StreamEnv) (req : Request) (session : Session)
    (file : schemas.FileOutFull) (tokens : List String) (channelID start finish : Int)
    (w : ResponseWriter) : StreamResult :=
  if env.config.DisableStreamBots ∨ tokens.length = 0 then
    let tgClient := telegram.Client.user session.Session
    let calls := [Call.UserLogin session.Session, Call.UserWorker tgClient]
    match env.UserWorker tgClient with
    | .error e => StreamResult.fail w calls e 500
    | .ok client =>
      let channelUser := FormatInt session.UserId
      warmBody env req file client channelUser start finish w calls
  else
    let limit := min (tokens.length : Int) env.config.BgBotsLimit
    if limit < 0 then { w := w, calls := [], errorReply := none, panicked := true }
    else
      let installed := tokens.take limit.toNat
      let calls := [Call.StreamWorkersSet installed channelID, Call.StreamWorkersNext channelID]
      match env.StreamWorkersNext installed channelID with
      | .error e => StreamResult.fail w calls e 500
      | .ok (client, index) =>
        if index < 0 then { w := w, calls := calls, errorReply := none, panicked := true }
        else
          match tokens[index.toNat]? with
          | none => { w := w, calls := calls, errorReply := none, panicked := true }
          | some token => warmBody env req file client (splitFirst token) start finish w calls

/-- Lines 549-616: credential selection and body. -/
def streamStage (env : StreamEnv) (req : Request) (session : Session)
    (file : schemas.FileOutFull) (start finish : Int) (w : ResponseWriter) : StreamResult :=
  match file.ChannelID with
  | none => { w := w, calls := [], errorReply := none, panicked := true }
  | some channelID =>
    match env.GetBotsToken session.UserId channelID with
    | .error e => StreamResult.fail w [] e 400
    | .ok tokens =>
      if env.config.LazyStreamBots then lazyStream env req file tokens channelID start finish w
      else warmStream env req session file tokens channelID start finish w

/-- Go `FileService.GetFileStream`. -/
def GetFileStream (env : StreamEnv) (req : Request) : StreamResult :=
  match prepareResponse env req with
  | .replied res => res
  | .ready session file start finish w => streamStage env req session file start finish w

/-! ## Sample environments -/

/-- Image of a row under `mapper.MapFileToFileOutFull` in the sample environments. -/
def sampleMap (f : models.File) : schemas.FileOutFull :=
  { ID := f.ID, Name := f.Name, MimeType := f.MimeType, Size := f.Size,
    UpdatedAt := f.UpdatedAt, ChannelID := f.ChannelID, Parts := f.Parts }

/-- A file row `f1` on channel 100 with the given size and parts. -/
def sampleFile (size : Int) (parts : List models.Part) : models.File :=
  { ID := "f1", Name := "video.mp4", Type_ := "file", MimeType := "video/mp4", Size := size,
    Starred := some false, Status := "active", UserID := 7, ParentID := "root",
    ChannelID := some 100, Parts := some parts, UpdatedAt := 0 }

/-- Answers of the range parser in the sample environments. -/
def sampleRangeParse (size : Int) (header : String) : Except String (List Range) :=
  if header = "bytes=1500000-1999999" then .ok [⟨1500000, 1999999⟩]
  else if header = "bytes=0-99,200-299" then .ok [⟨0, 99⟩, ⟨200, 299⟩]
  else if header = "bytes=0-" then .ok [⟨0, size - 1⟩]
  else .error "unsatisfiable range"

/-- An environment holding one file, with session hash `h1` of user 7, an empty cache, a
user worker and a pool that hands out its first token, and a platform that answers every
call. -/
def sampleEnv (file : models.File) (tokens : List String) (config : Config) : StreamEnv where
  GetSessionByHash := fun h =>
    if h = "h1" then .ok { UserId := 7, Session := "session-7" } else .error "record not found"
  cacheGet := fun _ => none
  dbFind := fun id => if id = file.ID then [file] else []
  MapFileToFileOutFull := sampleMap
  rangeParse := sampleRangeParse
  md5FromString := fun s => "md5(" ++ s ++ ")"
  formatHTTPTime := fun _ => "Thu, 01 Jan 1970 00:00:00 GMT"
  GetBotsToken := fun _ _ => .ok tokens
  config := config
  WorkersNext := fun ts _ => ts.head?
  RunWithAuth := fun _ _ => none
  UserWorker := fun c => .ok { Tg := c }
  StreamWorkersNext := fun ts _ =>
    match ts with
    | [] => .error "no workers"
    | t :: _ => .ok ({ Tg := .bot t }, 0)
  getParts := fun _ f _ => .ok ((f.Parts.getD []).map fun p => { ID := p.ID, Size := 0 })
  rangedParts := fun ps _ _ => ps
  readerBytes := fun _ _ n => List.replicate n.toNat 0

/-- Warm bots enabled, up to four per channel. -/
def warmConfig : Config :=
  { LazyStreamBots := false, DisableStreamBots := false, BgBotsLimit := 4 }

/-- Scenario A: three parts, 2_500_000 bytes. -/
def scenarioA : StreamEnv := sampleEnv (sampleFile 2500000 [⟨1⟩, ⟨2⟩, ⟨3⟩]) [] warmConfig

/-- Scenario B: one part, 10 bytes. -/
def scenarioB : StreamEnv := sampleEnv (sampleFile 10 [⟨1⟩]) [] warmConfig

/-- A request for the sample file under session hash `h1`. -/
def sampleRequest (method range : String) : Request :=
  { Method := method, fileID := "f1", hash := "h1", d := "", Range := range }

/-- Calls that fetch the part list, build the linear reader or copy from it. -/
def Call.servesBody : Call → Bool
  | .getParts _ _ => true
  | .rangedParts _ _ => true
  | .NewLinearReader _ _ => true
  | .CopyN _ => true
  | _ => false

/-- Bots fetched on demand, with stream bots disabled as well. -/
def lazyDisabledConfig : Config :=
  { LazyStreamBots := true, DisableStreamBots := true, BgBotsLimit := 4 }

/-- A zero-byte file without parts. -/
def emptyFileEnv : StreamEnv := sampleEnv (sampleFile 0 []) [] warmConfig

/-- Scenario B on a platform that fails to deliver the part messages. -/
def failingPartsEnv : StreamEnv :=
  { scenarioB with getParts := fun _ _ _ => .error "rpc error: CHANNEL_INVALID" }

/-- Scenario B with one bot token registered and the lazy and disable options both set. -/
def lazyDisabledEnv : StreamEnv := sampleEnv (sampleFile 10 [⟨1⟩]) ["111:abc"] lazyDisabledConfig

/-! ## Chat-platform messages -/

/-- Go interface `tg.DocumentClass`. -/
inductive tg.DocumentClass where
  | Document (ID AccessHash : Int)
  | DocumentEmpty
deriving DecidableEq, Repr

/-- Go interface `tg.MessageMediaClass`; `other` stands for every media that is not a
`*tg.MessageMediaDocument`, a missing media included. -/
inductive tg.MessageMediaClass where
  | MessageMediaDocument (Document : tg.DocumentClass)
  | other
deriving DecidableEq, Repr

/-- Go type `tg.Message`. -/
structure tg.Message where
  ID : Int
  Media : tg.MessageMediaClass
deriving DecidableEq, Repr

/-- Go interface `tg.MessageClass`. -/
inductive tg.MessageClass where
  | Message (m : tg.Message)
  | MessageEmpty
  | MessageService
deriving DecidableEq, Repr

/-- Go interface `tg.UpdateClass`; `other` stands for every update that is not a
`*tg.UpdateNewChannelMessage`. -/
inductive tg.UpdateClass where
  | UpdateNewChannelMessage (Message : tg.MessageClass)
  | other
deriving DecidableEq, Repr

/-- Go interface `tg.UpdatesClass`; `other` stands for every answer that is not a
`*tg.Updates`. -/
inductive tg.UpdatesClass where
  | Updates (Updates : List tg.UpdateClass)
  | other
deriving DecidableEq, Repr

/-- Channel handle returned by `GetChannelById`. -/
structure Channel where
  ChannelID : Int
  AccessHash : Int
deriving DecidableEq, Repr

/-- Go type `tg.MessagesSendMediaRequest`, with the fields `CopyFile` fills: the peer is a
`tg.InputPeerChannel`, the media a `tg.InputMediaDocument` of the document's input. -/
structure tg.MessagesSendMediaRequest where
  Silent : Bool
  PeerChannelID : Int
  PeerAccessHash : Int
  MediaID : Int
  MediaAccessHash : Int
  RandomID : Int
deriving DecidableEq, Repr

/-- Outcome of a stretch of handler code: a value, a returned error, or a run-time panic. -/
inductive Step (α : Type) where
  | ok (a : α)
  | error (e : String)
  | panic
deriving DecidableEq, Repr

/-- The loop over `updates.Updates` in `CopyFile` (lines 363-372) and in `UploadFile`
(lines 174-183): the message of the first new-channel-message update, `none` when there is
no such update; the assertion `channelMsg.Message.(*tg.Message)` panics on another class. -/
def findChannelMessage : List tg.UpdateClass → Step (Option tg.Message)
  | [] => .ok none
  | .UpdateNewChannelMessage (.Message m) :: _ => .ok (some m)
  | .UpdateNewChannelMessage _ :: _ => .panic
  | .other :: rest => findChannelMessage rest

/-! ## `CopyFile` -/

/-- Go type `schemas.Copy`: the payload of a copy request. -/
structure schemas.Copy where
  ID : String
  Name : String
  Destination : String
deriving DecidableEq, Repr

/-- Collaborators of `CopyFile`; `FileOut` is the type `schemas.FileOut`. -/
structure CopyEnv (FileOut : Type) where
  /-- Result of `c.ShouldBindJSON(&payload)`. -/
  ShouldBindJSON : Except String schemas.Copy
  /-- Result of `getUserAuth(c)`: the caller's user id and session. -/
  getUserAuth : Int × String
  /-- The rows `Where("id = ?", payload.ID).Find(&res)` yields. -/
  dbFind : String → List models.File
  /-- The error `tgc.RunWithAuth` returns without running its callback, if any. -/
  RunWithAuth : Option String
  /-- Result of `getTGMessages(c, client, parts, channelId, user)`: the field `Messages`. -/
  getTGMessages : List models.Part → Int → String → Except String (List tg.MessageClass)
  /-- Result of `GetChannelById(c, client, channelId, user)`. -/
  GetChannelById : Int → String → Except String Channel
  /-- Result of the call of `RandInt64()` in the iteration of the given index. -/
  RandInt64 : Nat → Int
  /-- Result of `client.API().MessagesSendMedia(c, &request)` in the iteration of the given
  index. -/
  MessagesSendMedia : Nat → tg.MessagesSendMediaRequest → Except String tg.UpdatesClass
  /-- Rows of `select * from teldrive.create_directories(?, ?)`. -/
  createDirectories : Int → String → Except String (List models.File)
  /-- Result of `fs.Db.Create(&dbFile)`: the row as stored, or the error. -/
  dbCreate : models.File → Except String models.File
  /-- Go `mapper.MapFileToFileOut`. -/
  MapFileToFileOut : models.File → FileOut

/-- What `CopyFile` returns: the file out of the row it inserted, an `AppError`, or a panic.
-/
inductive CopyResult (FileOut : Type) where
  | done (inserted : models.File) (out : FileOut)
  | failed (code : Int) (msg : String)
  | panic
deriving DecidableEq, Repr

/-- Lines 344-373: one iteration of the loop over the source messages. -/
def copyMessage {FileOut : Type} (env : CopyEnv FileOut) (channel : Channel) (i : Nat)
    (message : tg.MessageClass) : Step models.Part :=
  match message with
  | .Message item =>
    match item.Media with
    | .MessageMediaDocument (.Document docID docHash) =>
      let id := env.RandInt64 i
      let request : tg.MessagesSendMediaRequest :=
        { Silent := true, PeerChannelID := channel.ChannelID,
          PeerAccessHash := channel.AccessHash, MediaID := docID, MediaAccessHash := docHash,
          RandomID := id }
      match env.MessagesSendMedia i request with
      | .error e => .error e
      | .ok (.Updates updates) =>
        match findChannelMessage updates with
        | .ok (some msg) => .ok { ID := msg.ID }
        | .ok none => .panic
        | .error e => .error e
        | .panic => .panic
      | .ok .other => .panic
    | _ => .panic
  | _ => .panic

/-- Lines 343-375: the loop over the source messages, from iteration `i` on, appending to
`newIds`. -/
def copyMessages {FileOut : Type} (env : CopyEnv FileOut) (channel : Channel) :
    Nat → List tg.MessageClass → List models.Part → Step (List models.Part)
  | _, [], newIds => .ok newIds
  | i, message :: rest, newIds =>
    match copyMessage env channel i message with
    | .ok part => copyMessages env channel (i + 1) rest (newIds ++ [part])
    | .error e => .error e
    | .panic => .panic

/-- Lines 333-376: the callback given to `tgc.RunWithAuth`. -/
def copyCallback {FileOut : Type} (env : CopyEnv FileOut) (userId : Int) (file : models.File) :
    Step (List models.Part) :=
  let user := FormatInt userId
  match file.Parts with
  | none => .panic
  | some parts =>
    match file.ChannelID with
    | none => .panic
    | some channelID =>
      match env.getTGMessages parts channelID user with
      | .error e => .error e
      | .ok messages =>
        match env.GetChannelById channelID user with
        | .error e => .error e
        | .ok channel => copyMessages env channel 0 messages []

/-- Lines 391-402: the row to insert. -/
def copyRow (payload : schemas.Copy) (userId : Int) (file dest : models.File)
    (newIds : List models.Part) : models.File :=
  { ID := "", Name := payload.Name, Type_ := file.Type_, MimeType := file.MimeType,
    Size := file.Size, Starred := some false, Status := "active", UserID := userId,
    ParentID := dest.ID, ChannelID := file.ChannelID, Parts := some newIds, UpdatedAt := 0 }

/-- Go `FileService.CopyFile`. -/
def CopyFile {FileOut : Type} (env : CopyEnv FileOut) : CopyResult FileOut :=
  match env.ShouldBindJSON with
  | .error _ => .failed 400 "invalid request payload"
  | .ok payload =>
    let userId := env.getUserAuth.1
    match env.dbFind payload.ID with
    | [] => .panic
    | file :: _ =>
      let ran : Step (List models.Part) :=
        match env.RunWithAuth with
        | some e => .error e
        | none => copyCallback env userId file
      match ran with
      | .panic => .panic
      | .error e => .failed 400 e
      | .ok newIds =>
        match env.createDirectories userId payload.Destination with
        | .error _ => .failed 500 "failed to create destination"
        | .ok [] => .panic
        | .ok (dest :: _) =>
          let dbFile := copyRow payload userId file dest newIds
          match env.dbCreate dbFile with
          | .error _ => .failed 400 "failed to copy file"
          | .ok stored => .done dbFile (env.MapFileToFileOut stored)

/-- The folder row `/a/b`. -/
def sampleFolder : models.File :=
  { ID := "dir-b", Name := "b", Type_ := "folder", MimeType := "drive/folder", Size := 0,
    Starred := some false, Status := "active", UserID := 7, ParentID := "dir-a",
    ChannelID := none, Parts := none, UpdatedAt := 0 }

/-- Scenario D: user 7 copies file `f1`, parts `[1, 2, 3]` on channel 100, to `/a/b` as
`x`. The platform holds a document `1000 + m` in message `m` and answers the send of that
document with a batch whose new channel message has id `m + 10`. -/
def scenarioD : CopyEnv models.File where
  ShouldBindJSON := .ok { ID := "f1", Name := "x", Destination := "/a/b" }
  getUserAuth := (7, "session-7")
  dbFind := fun id => if id = "f1" then [sampleFile 2500000 [⟨1⟩, ⟨2⟩, ⟨3⟩]] else []
  RunWithAuth := none
  getTGMessages := fun parts _ _ =>
    .ok (parts.map fun p =>
      .Message { ID := p.ID, Media := .MessageMediaDocument (.Document (1000 + p.ID) 55) })
  GetChannelById := fun channelId _ => .ok { ChannelID := channelId, AccessHash := 99 }
  RandInt64 := fun i => 4242 + i
  MessagesSendMedia := fun _ request =>
    .ok (.Updates [.other,
      .UpdateNewChannelMessage (.Message
        { ID := request.MediaID - 1000 + 10,
          Media := .MessageMediaDocument (.Document request.MediaID 55) })])
  createDirectories := fun _ path => if path = "/a/b" then .ok [sampleFolder] else .ok []
  dbCreate := fun row => .ok { row with ID := "f2" }
  MapFileToFileOut := fun row => row

/-! ## `UploadFile` -/

/-- Go type `schemas.UploadQuery`. -/
structure schemas.UploadQuery where
  Filename : String
  PartNo : Int
  TotalParts : Int
  ChannelID : Int
deriving DecidableEq, Repr

/-- Go type `models.Upload`: a row of the uploads table. -/
structure models.Upload where
  Name : String
  UploadId : String
  PartId : Int
  ChannelID : Int
  Size : Int
  PartNo : Int
  TotalParts : Int
  UserId : Int
deriving DecidableEq, Repr

/-- The query string of an upload request: the value under each of the keys `fileName`,
`partNo`, `totalParts` and `channelId`, `none` for a key the query omits, and the error of
the binding when a value does not bind. -/
structure UploadQueryParams where
  fileName : Option String
  partNo : Option Int
  totalParts : Option Int
  channelId : Option Int
  bindError : Option String
deriving DecidableEq, Repr

/-- Modelled from the spec: the form keys of `schemas.UploadQuery`, whose declaration is not
among the sources (`fileName`, `partNo`, `totalParts`, `channelId`). This is gin's
`c.ShouldBindQuery(&uploadQuery)`: a key the query omits leaves its field as preset. -/
def ShouldBindQuery (q : UploadQueryParams) (preset : schemas.UploadQuery) :
    Except String schemas.UploadQuery :=
  match q.bindError with
  | some e => .error e
  | none =>
    .ok { Filename := q.fileName.getD preset.Filename, PartNo := q.partNo.getD preset.PartNo,
          TotalParts := q.totalParts.getD preset.TotalParts,
          ChannelID := q.channelId.getD preset.ChannelID }

/-- Collaborators of `UploadFile`; `UploadPartOut` is the type `schemas.UploadPartOut`. -/
structure UploadEnv (UploadPartOut : Type) where
  /-- The query string of the request. -/
  query : UploadQueryParams
  /-- Result of `getUserAuth(c)`: the caller's user id and session. -/
  getUserAuth : Int × String
  /-- Path parameter `c.Param("id")`. -/
  uploadId : String
  /-- The bytes of `c.Request.Body`. -/
  Body : List UInt8
  /-- Header value `c.Request.ContentLength`. -/
  ContentLength : Int
  /-- Result of `GetDefaultChannel(c, userId)`. -/
  GetDefaultChannel : Int → Except String Int
  /-- Result of `GetBotsToken(c, userId, channelId)`. -/
  GetBotsToken : Int → Int → Except String (List String)
  /-- Result of `tgc.Workers.Next(channelId)` after `tgc.Workers.Set(tokens, channelId)`;
  `none` when the call does not return. -/
  WorkersNext : List String → Int → Option String
  /-- The error `tgc.RunWithAuth` returns without running its callback, if any. -/
  RunWithAuth : telegram.Client → String → Option String
  /-- Result of `GetChannelById(ctx, client, channelId, channelUser)`. -/
  GetChannelById : telegram.Client → Int → String → Except String Channel
  /-- Result of `u.Upload(c, uploader.NewUpload(fileName, file, fileSize))` with 16 threads
  and parts of 512 KiB: a handle of the uploaded file. -/
  Upload : telegram.Client → String → List UInt8 → Int → Except String Int
  /-- Result of `target.Media(c, document)` for the document of the uploaded file under the
  file name, sent to the channel. -/
  Media : telegram.Client → Channel → String → Int → Except String tg.UpdatesClass
  /-- Result of `us.Db.Create(partUpload)`: the row as stored, or the error. -/
  dbCreate : models.Upload → Except String models.Upload
  /-- Go `mapper.MapUploadSchema`. -/
  MapUploadSchema : models.Upload → UploadPartOut

/-- What a handler returns: a value, an `AppError`, or a panic. -/
inductive Reply (α : Type) where
  | ok (out : α)
  | appError (code : Int) (msg : String)
  | panic
deriving DecidableEq, Repr

/-- What `UploadFile` leaves behind: its reply, and the rows `Db.Create` stored. -/
structure UploadResult (UploadPartOut : Type) where
  reply : Reply UploadPartOut
  inserted : List models.Upload
deriving DecidableEq, Repr

/-- Lines 141-207: the callback given to `tgc.RunWithAuth`; it yields the row it created
and the row as stored. -/
def uploadCallback {UploadPartOut : Type} (env : UploadEnv UploadPartOut)
    (client : telegram.Client) (channelId : Int) (channelUser fileName : String)
    (uploadQuery : schemas.UploadQuery) (userId : Int) : Step (models.Upload × models.Upload) :=
  let fileSize := env.ContentLength
  match env.GetChannelById client channelId channelUser with
  | .error e => .error e
  | .ok channel =>
    match env.Upload client fileName env.Body fileSize with
    | .error e => .error e
    | .ok upload =>
      match env.Media client channel fileName upload with
      | .error e => .error e
      | .ok .other => .panic
      | .ok (.Updates updates) =>
        match findChannelMessage updates with
        | .panic => .panic
        | .error e => .error e
        | .ok none => .panic
        | .ok (some message) =>
          if message.ID = 0 then .error "failed to upload part"
          else
            let partUpload : models.Upload :=
              { Name := fileName, UploadId := env.uploadId, PartId := message.ID,
                ChannelID := channelId, Size := fileSize, PartNo := uploadQuery.PartNo,
                TotalParts := uploadQuery.TotalParts, UserId := userId }
            match env.dbCreate partUpload with
            | .error _ => .error "failed to upload part"
            | .ok stored => .ok (partUpload, stored)

/-- Lines 131-139: the client, the token given to `tgc.RunWithAuth` and the acting user;
`none` when `tgc.Workers.Next` does not return. -/
def uploadCredential {UploadPartOut : Type} (env : UploadEnv UploadPartOut)
    (tokens : List String) (channelId userId : Int) (session : String) :
    Option (telegram.Client × String × String) :=
  if tokens.length = 0 then some (.user session, "", FormatInt userId)
  else
    match env.WorkersNext tokens channelId with
    | none => none
    | some token => some (.bot token, token, splitFirst token)

/-- Go `UploadService.UploadFile`. -/
def UploadFile {UploadPartOut : Type} (env : UploadEnv UploadPartOut) :
    UploadResult UploadPartOut :=
  let preset : schemas.UploadQuery := { Filename := "", PartNo := 1, TotalParts := 1, ChannelID := 0 }
  match ShouldBindQuery env.query preset with
  | .error e => { reply := .appError 400 e, inserted := [] }
  | .ok uploadQuery =>
    if uploadQuery.Filename = "" then { reply := .appError 400 "filename missing", inserted := [] }
    else
      let userId := env.getUserAuth.1
      let session := env.getUserAuth.2
      let fileName := uploadQuery.Filename
      let channel : Except String Int :=
        if uploadQuery.ChannelID = 0 then env.GetDefaultChannel userId
        else .ok uploadQuery.ChannelID
      match channel with
      | .error e => { reply := .appError 500 e, inserted := [] }
      | .ok channelId =>
        match env.GetBotsToken userId channelId with
        | .error _ => { reply := .appError 500 "failed to fetch bots", inserted := [] }
        | .ok tokens =>
          match uploadCredential env tokens channelId userId session with
          | none => { reply := .panic, inserted := [] }
          | some (client, token, channelUser) =>
            let ran : Step (models.Upload × models.Upload) :=
              match env.RunWithAuth client token with
              | some e => .error e
              | none => uploadCallback env client channelId channelUser fileName uploadQuery userId
            match ran with
            | .panic => { reply := .panic, inserted := [] }
            | .error e => { reply := .appError 500 e, inserted := [] }
            | .ok (partUpload, stored) =>
              { reply := .ok (env.MapUploadSchema stored), inserted := [partUpload] }

/-- Scenario C: user 7 uploads part 1 of 2 of `video.mp4` under the upload id `u1`, with a
content length of 512 MiB and no channel in the query; the default channel is 100, no bot
is registered, and the platform answers the send with message 4711. -/
def scenarioC : UploadEnv models.Upload where
  query := { fileName := some "video.mp4", partNo := some 1, totalParts := some 2,
             channelId := none, bindError := none }
  getUserAuth := (7, "session-7")
  uploadId := "u1"
  Body := []
  ContentLength := 536870912
  GetDefaultChannel := fun _ => .ok 100
  GetBotsToken := fun _ _ => .ok []
  WorkersNext := fun ts _ => ts.head?
  RunWithAuth := fun _ _ => none
  GetChannelById := fun _ channelId _ => .ok { ChannelID := channelId, AccessHash := 99 }
  Upload := fun _ _ _ _ => .ok 1
  Media := fun _ _ _ _ =>
    .ok (.Updates [.other,
      .UpdateNewChannelMessage (.Message { ID := 4711, Media := .other })])
  dbCreate := fun row => .ok row
  MapUploadSchema := fun row => row

/-- The row scenario C stores. -/
def scenarioCRow : models.Upload :=
  { Name := "video.mp4", UploadId := "u1", PartId := 4711, ChannelID := 100,
    Size := 536870912, PartNo := 1, TotalParts := 2, UserId := 7 }

/-! ## Sample environments with failing collaborators -/

/-- Scenario B with an index store that fails the bot-token lookup. -/
def failingTokensEnv : StreamEnv :=
  { scenarioB with GetBotsToken := fun _ _ => .error "failed to connect to the database" }

/-- Scenario C on a platform that answers the send with a batch holding no new channel
message. -/
def emptyBatchEnv : UploadEnv models.Upload :=
  { scenarioC with Media := fun _ _ _ _ => .ok (.Updates [.other]) }

/-- Scenario C on a platform that answers the send with a new channel message of id 0. -/
def zeroIdEnv : UploadEnv models.Upload :=
  { scenarioC with
    Media := fun _ _ _ _ =>
      .ok (.Updates [.UpdateNewChannelMessage (.Message { ID := 0, Media := .other })]) }

/-! ## Lemmas on integers and headers -/

theorem wrapInt64_of_isInt64 {x : Int} (h : isInt64 x) : wrapInt64 x = x := by
  unfold isInt64 at h
  unfold wrapInt64
  omega

theorem wrapInt64_add_one (x : Int) : wrapInt64 (wrapInt64 x + 1) = wrapInt64 (x + 1) := by
  unfold wrapInt64
  omega

theorem contentLengthOf_eq (start finish : Int) :
    contentLengthOf start finish = wrapInt64 (finish - start + 1) := by
  unfold contentLengthOf
  rw [wrapInt64_add_one]

theorem headerGet_headerSet_same (h : List (String × String)) (k v : String) :
    headerGet (headerSet h k v) k = some v := by
  induction h with
  | nil => simp [headerSet, headerGet]
  | cons e t ih =>
    obtain ⟨k', v'⟩ := e
    by_cases hk : k' = k
    · simp [headerSet, headerGet, hk]
    · simp [headerSet, headerGet, hk, ih]

theorem headerGet_headerSet_other (h : List (String × String)) (k v k' : String)
    (hne : k ≠ k') : headerGet (headerSet h k v) k' = headerGet h k' := by
  induction h with
  | nil => simp [headerSet, headerGet, hne]
  | cons e t ih =>
    obtain ⟨k₀, v₀⟩ := e
    by_cases hk : k₀ = k
    · subst hk
      simp [headerSet, headerGet, hne]
    · by_cases hk' : k₀ = k'
      · subst hk'
        simp [headerSet, headerGet, hk]
      · simp [headerSet, headerGet, hk, hk', ih]

theorem ioCopyN_status (w : ResponseWriter) (src : List UInt8) (n : Int) :
    (ioCopyN w src n).status = w.status := by
  unfold ioCopyN
  split <;> rfl

theorem ioCopyN_header (w : ResponseWriter) (src : List UInt8) (n : Int) :
    (ioCopyN w src n).header = w.header := by
  unfold ioCopyN
  split <;> rfl

theorem copyParts_ok_frame (env : StreamEnv) (client : telegram.Client)
    (file : schemas.FileOutFull) (channelUser : String) (start finish : Int)
    (w w' : ResponseWriter) (cs : List Call)
    (h : copyParts env client file channelUser start finish w = (.ok w', cs)) :
    w'.status = w.status ∧ w'.header = w.header := by
  unfold copyParts at h
  split at h
  · simp at h
  · simp only [Prod.mk.injEq, Except.ok.injEq] at h
    rw [← h.1]
    exact ⟨ioCopyN_status _ _ _, ioCopyN_header _ _ _⟩

theorem lazyStream_frame (env : StreamEnv) (req : Request) (file : schemas.FileOutFull)
    (tokens : List String) (channelID start finish : Int) (w : ResponseWriter) :
    (lazyStream env req file tokens channelID start finish w).errorReply = none ∧
      (lazyStream env req file tokens channelID start finish w).w.status = w.status ∧
      (lazyStream env req file tokens channelID start finish w).w.header = w.header := by
  unfold lazyStream
  cases hn : env.WorkersNext tokens channelID with
  | none => simp
  | some token =>
    by_cases hm : req.Method = "HEAD"
    · simp [hm]
    · cases hr : env.RunWithAuth (telegram.Client.bot token) token with
      | some e => simp [hm, hr]
      | none =>
        rcases hcp : copyParts env (telegram.Client.bot token) file (splitFirst token)
          start finish w with ⟨_ | w', cs⟩
        · simp [hm, hr, hcp]
        · have hf := copyParts_ok_frame _ _ _ _ _ _ _ _ _ hcp
          simp [hm, hr, hcp, hf]

theorem warmBody_frame (env : StreamEnv) (req : Request) (file : schemas.FileOutFull)
    (client : tgc.Client) (channelUser : String) (start finish : Int) (w : ResponseWriter)
    (calls : List Call)
    (h : (warmBody env req file client channelUser start finish w calls).errorReply = none) :
    (warmBody env req file client channelUser start finish w calls).w.status = w.status ∧
      (warmBody env req file client channelUser start finish w calls).w.header = w.header := by
  unfold warmBody at h ⊢
  by_cases hm : req.Method = "HEAD"
  · simp [hm]
  · rcases hcp : copyParts env client.Tg file channelUser start finish w with ⟨e | w', cs⟩
    · simp [hm, hcp, StreamResult.fail] at h
    · have hf := copyParts_ok_frame _ _ _ _ _ _ _ _ _ hcp
      simp [hm, hcp, hf]

theorem warmStream_frame (env : StreamEnv) (req : Request) (session : Session)
    (file : schemas.FileOutFull) (tokens : List String) (channelID start finish : Int)
    (w : ResponseWriter)
    (h : (warmStream env req session file tokens channelID start finish w).errorReply = none) :
    (warmStream env req session file tokens channelID start finish w).w.status = w.status ∧
      (warmStream env req session file tokens channelID start finish w).w.header = w.header := by
  unfold warmStream at h ⊢
  by_cases hu : env.config.DisableStreamBots = true ∨ tokens.length = 0
  · rw [if_pos hu] at h ⊢
    cases hw : env.UserWorker (telegram.Client.user session.Session) with
    | error e => simp [hw, StreamResult.fail] at h
    | ok client =>
      simp only [hw] at h ⊢
      exact warmBody_frame _ _ _ _ _ _ _ _ _ h
  · rw [if_neg hu] at h ⊢
    by_cases hl : min (tokens.length : Int) env.config.BgBotsLimit < 0
    · simp [hl]
    · simp only [hl, if_false] at h ⊢
      cases hn : env.StreamWorkersNext
          (List.take (min (tokens.length : Int) env.config.BgBotsLimit).toNat tokens)
          channelID with
      | error e => simp [hn, StreamResult.fail] at h
      | ok p =>
        obtain ⟨client, index⟩ := p
        simp only [hn] at h ⊢
        by_cases hi : index < 0
        · simp [hi]
        · simp only [hi, if_false] at h ⊢
          cases ht : tokens[index.toNat]? with
          | none => simp
          | some token =>
            simp only [ht] at h ⊢
            exact warmBody_frame _ _ _ _ _ _ _ _ _ h

/-- A run of the credential-and-body stage that does not answer through `http.Error`
leaves the status and the headers as it found them. -/
theorem streamStage_frame (env : StreamEnv) (req : Request) (session : Session)
    (file : schemas.FileOutFull) (start finish : Int) (w : ResponseWriter)
    (h : (streamStage env req session file start finish w).errorReply = none) :
    (streamStage env req session file start finish w).w.status = w.status ∧
      (streamStage env req session file start finish w).w.header = w.header := by
  unfold streamStage at h ⊢
  cases hch : file.ChannelID with
  | none => simp
  | some channelID =>
    simp only [hch] at h ⊢
    cases htok : env.GetBotsToken session.UserId channelID with
    | error e => simp [htok, StreamResult.fail] at h
    | ok tokens =>
      simp only [htok] at h ⊢
      by_cases hlazy : env.config.LazyStreamBots = true
      · simp only [hlazy, if_true] at h ⊢
        exact (lazyStream_frame _ _ _ _ _ _ _ _).2
      · simp only [hlazy] at h ⊢
        exact warmStream_frame _ _ _ _ _ _ _ _ _ h

theorem Nat_repr_ne_empty (n : Nat) : Nat.repr n ≠ "" := by
  intro h
  have hlen : (Nat.repr n).length = 0 := by rw [h]; rfl
  simp only [Nat.repr, Nat.toDigits, List.asString, String.length, Nat.toDigitsCore] at hlen
  split at hlen
  · simp at hlen
  · rw [Nat.toDigitsCore_lens_eq] at hlen
    omega

theorem FormatInt_ne_empty (x : Int) : FormatInt x ≠ "" := by
  unfold FormatInt
  intro h
  split at h
  · have hlen := congrArg String.length h
    simp only [String.length_append] at hlen
    have h1 : ("-" : String).length = 1 := rfl
    have h0 : ("" : String).length = 0 := rfl
    omega
  · exact Nat_repr_ne_empty _ h

theorem append_ne_empty_left (a b : String) (h : a ≠ "") : a ++ b ≠ "" := by
  intro hab
  have hlen := congrArg String.length hab
  rw [String.length_append] at hlen
  have h0 : a.length = 0 := by
    have : ("" : String).length = 0 := rfl
    omega
  exact h (String.ext (List.length_eq_zero.mp h0))

theorem headerGet_headerDel_other (h : List (String × String)) (k k' : String)
    (hne : k ≠ k') : headerGet (headerDel h k) k' = headerGet h k' := by
  induction h with
  | nil => simp [headerDel, headerGet]
  | cons e t ih =>
    obtain ⟨k₀, v₀⟩ := e
    unfold headerDel at ih ⊢
    by_cases hk : k₀ = k
    · subst hk
      simp [List.filter_cons, headerGet, hne, ih]
    · have hb : (k₀ != k) = true := by simp [hk]
      simp [List.filter_cons, hb, headerGet, ih]

theorem ctxHeader_status (w : ResponseWriter) (k v : String) :
    (ctxHeader w k v).status = w.status := by
  unfold ctxHeader
  split <;> rfl

theorem ctxHeader_get_same (w : ResponseWriter) (k v : String) (hv : v ≠ "") :
    headerGet (ctxHeader w k v).header k = some v := by
  simp [ctxHeader, hv, headerGet_headerSet_same]

theorem ctxHeader_get_other (w : ResponseWriter) (k v k' : String) (hne : k ≠ k') :
    headerGet (ctxHeader w k v).header k' = headerGet w.header k' := by
  unfold ctxHeader
  split
  · exact headerGet_headerDel_other _ _ _ hne
  · exact headerGet_headerSet_other _ _ _ _ hne

theorem WriteHeader_header (w : ResponseWriter) (code : Int) :
    (w.WriteHeader code).header = w.header := by
  unfold ResponseWriter.WriteHeader
  split
  · split <;> rfl
  · rfl

theorem WriteHeader_status (w : ResponseWriter) (code : Int) (hc : 0 < code)
    (hw : w.written = false) : (w.WriteHeader code).status = code := by
  unfold ResponseWriter.WriteHeader
  by_cases h : w.status = code
  · simp [h]
  · simp [h, hc, hw]

theorem ctxHeader_written (w : ResponseWriter) (k v : String) :
    (ctxHeader w k v).written = w.written := by
  unfold ctxHeader
  split <;> rfl

theorem setEntityHeaders_status (env : StreamEnv) (req : Request) (file : schemas.FileOutFull)
    (start finish : Int) (w : ResponseWriter) :
    (setEntityHeaders env req file start finish w).status = w.status := by
  simp [setEntityHeaders, ctxHeader_status]

theorem setEntityHeaders_contentLength (env : StreamEnv) (req : Request)
    (file : schemas.FileOutFull) (start finish : Int) (w : ResponseWriter) :
    headerGet (setEntityHeaders env req file start finish w).header "Content-Length" =
      some (FormatInt (contentLengthOf start finish)) := by
  unfold setEntityHeaders
  simp only []
  rw [ctxHeader_get_other _ _ _ _ (by decide), ctxHeader_get_other _ _ _ _ (by decide),
    ctxHeader_get_other _ _ _ _ (by decide), ctxHeader_get_same _ _ _ (FormatInt_ne_empty _)]

theorem setEntityHeaders_contentRange (env : StreamEnv) (req : Request)
    (file : schemas.FileOutFull) (start finish : Int) (w : ResponseWriter) :
    headerGet (setEntityHeaders env req file start finish w).header "Content-Range" =
      headerGet w.header "Content-Range" := by
  unfold setEntityHeaders
  simp only []
  rw [ctxHeader_get_other _ _ _ _ (by decide), ctxHeader_get_other _ _ _ _ (by decide),
    ctxHeader_get_other _ _ _ _ (by decide), ctxHeader_get_other _ _ _ _ (by decide),
    ctxHeader_get_other _ _ _ _ (by decide)]

/-- The handler continues a prepared response with the credential-and-body stage. -/
theorem GetFileStream_of_ready (env : StreamEnv) (req : Request) (session : Session)
    (file : schemas.FileOutFull) (start finish : Int) (w : ResponseWriter)
    (h : prepareResponse env req = .ready session file start finish w) :
    GetFileStream env req = streamStage env req session file start finish w := by
  simp [GetFileStream, h]

theorem httpError_status (w : ResponseWriter) (msg : String) (code : Int) (hc : 0 < code)
    (hw : w.written = false) : (httpError w msg code).status = code := by
  unfold httpError ResponseWriter.Write
  simp only []
  exact WriteHeader_status _ _ hc hw

theorem warmBody_error (env : StreamEnv) (req : Request) (file : schemas.FileOutFull)
    (client : tgc.Client) (channelUser : String) (start finish : Int) (w : ResponseWriter)
    (calls : List Call) (c : Int) (e : String)
    (h : (warmBody env req file client channelUser start finish w calls).errorReply =
      some (c, e)) :
    (warmBody env req file client channelUser start finish w calls).w = httpError w e c ∧
      c = 500 := by
  unfold warmBody at h ⊢
  by_cases hm : req.Method = "HEAD"
  · simp [hm] at h
  · rcases hcp : copyParts env client.Tg file channelUser start finish w with ⟨e' | w', cs⟩
    · simp only [hm, hcp, StreamResult.fail, ne_eq, not_false_eq_true, if_true,
        Option.some.injEq, Prod.mk.injEq] at h ⊢
      obtain ⟨rfl, rfl⟩ := h
      exact ⟨rfl, rfl⟩
    · simp [hm, hcp] at h

theorem warmStream_error (env : StreamEnv) (req : Request) (session : Session)
    (file : schemas.FileOutFull) (tokens : List String) (channelID start finish : Int)
    (w : ResponseWriter) (c : Int) (e : String)
    (h : (warmStream env req session file tokens channelID start finish w).errorReply =
      some (c, e)) :
    (warmStream env req session file tokens channelID start finish w).w = httpError w e c ∧
      c = 500 := by
  unfold warmStream at h ⊢
  by_cases hu : env.config.DisableStreamBots = true ∨ tokens.length = 0
  · rw [if_pos hu] at h ⊢
    cases hw : env.UserWorker (telegram.Client.user session.Session) with
    | error e' =>
      simp only [hw, StreamResult.fail, Option.some.injEq, Prod.mk.injEq] at h ⊢
      obtain ⟨rfl, rfl⟩ := h
      exact ⟨rfl, rfl⟩
    | ok client =>
      simp only [hw] at h ⊢
      exact warmBody_error _ _ _ _ _ _ _ _ _ _ _ h
  · rw [if_neg hu] at h ⊢
    by_cases hl : min (tokens.length : Int) env.config.BgBotsLimit < 0
    · simp [hl] at h
    · simp only [hl, if_false] at h ⊢
      cases hn : env.StreamWorkersNext
          (List.take (min (tokens.length : Int) env.config.BgBotsLimit).toNat tokens)
          channelID with
      | error e' =>
        simp only [hn, StreamResult.fail, Option.some.injEq, Prod.mk.injEq] at h ⊢
        obtain ⟨rfl, rfl⟩ := h
        exact ⟨rfl, rfl⟩
      | ok p =>
        obtain ⟨client, index⟩ := p
        simp only [hn] at h ⊢
        by_cases hi : index < 0
        · simp [hi] at h
        · simp only [hi, if_false] at h ⊢
          cases ht : tokens[index.toNat]? with
          | none =>
            rw [ht] at h
            simp at h
          | some token =>
            simp only [ht] at h ⊢
            exact warmBody_error _ _ _ _ _ _ _ _ _ _ _ h

/-- The credential-and-body stage answers through `http.Error` with 400 or 500 only. -/
theorem streamStage_error (env : StreamEnv) (req : Request) (session : Session)
    (file : schemas.FileOutFull) (start finish : Int) (w : ResponseWriter) (c : Int)
    (e : String) (h : (streamStage env req session file start finish w).errorReply = some (c, e)) :
    (streamStage env req session file start finish w).w = httpError w e c ∧
      (c = 400 ∨ c = 500) := by
  unfold streamStage at h ⊢
  cases hch : file.ChannelID with
  | none => simp [hch] at h
  | some channelID =>
    simp only [hch] at h ⊢
    cases htok : env.GetBotsToken session.UserId channelID with
    | error e' =>
      simp only [htok, StreamResult.fail, Option.some.injEq, Prod.mk.injEq] at h ⊢
      obtain ⟨rfl, rfl⟩ := h
      exact ⟨rfl, Or.inl rfl⟩
    | ok tokens =>
      simp only [htok] at h ⊢
      by_cases hlazy : env.config.LazyStreamBots = true
      · simp only [hlazy, if_true] at h ⊢
        rw [(lazyStream_frame _ _ _ _ _ _ _ _).1] at h
        exact absurd h (by simp)
      · simp only [hlazy] at h ⊢
        have hw := warmStream_error _ _ _ _ _ _ _ _ _ _ _ h
        exact ⟨hw.1, Or.inr hw.2⟩

/-- A prepared response has status 200 or 206 and nothing of it has gone out. -/
theorem prepareResponse_ready (env : StreamEnv) (req : Request) (session : Session)
    (file : schemas.FileOutFull) (start finish : Int) (w : ResponseWriter)
    (h : prepareResponse env req = .ready session file start finish w) :
    (w.status = 200 ∨ w.status = 206) ∧ w.written = false := by
  unfold prepareResponse at h
  by_cases hh : req.hash = ""
  · simp [hh] at h
  · simp only [hh, if_false] at h
    cases hs : env.GetSessionByHash req.hash with
    | error e => simp [hs] at h
    | ok session' =>
      simp only [hs] at h
      cases hf : loadFile env req.fileID with
      | error e => simp [hf] at h
      | ok file' =>
        simp only [hf] at h
        cases hr : rangeWindow env file' req.Range
            (ctxHeader ResponseWriter.new "Accept-Ranges" "bytes") with
        | bad e => simp [hr] at h
        | panic => simp [hr] at h
        | window a b w₀ =>
          simp only [hr, Prepared.ready.injEq] at h
          obtain ⟨_, _, _, _, rfl⟩ := h
          have hw₀ : (w₀.status = 200 ∨ w₀.status = 206) ∧ w₀.written = false := by
            unfold rangeWindow at hr
            by_cases hx : req.Range = ""
            · simp only [hx, if_true, RangeOutcome.window.injEq] at hr
              obtain ⟨_, _, rfl⟩ := hr
              exact ⟨Or.inl rfl, rfl⟩
            · simp only [hx, if_false] at hr
              cases hp : env.rangeParse file'.Size req.Range with
              | error e => simp [hp] at hr
              | ok rs =>
                cases rs with
                | nil => simp [hp] at hr
                | cons r rs =>
                  simp only [hp, RangeOutcome.window.injEq] at hr
                  obtain ⟨_, _, rfl⟩ := hr
                  constructor
                  · right
                    apply WriteHeader_status _ _ (by decide)
                    rw [ctxHeader_written, ctxHeader_written]
                    rfl
                  · unfold ResponseWriter.WriteHeader
                    split
                    · rw [ctxHeader_written, ctxHeader_written]
                      rfl
                    · rw [ctxHeader_written, ctxHeader_written]
                      rfl
          rw [setEntityHeaders_status]
          refine ⟨hw₀.1, ?_⟩
          simp only [setEntityHeaders, ctxHeader_written]
          exact hw₀.2

/-- A request answered before the headers are set gets status 400 (or the initial 200 when
the handler panics on an empty list of ranges). -/
theorem prepareResponse_replied (env : StreamEnv) (req : Request) (res : StreamResult)
    (h : prepareResponse env req = .replied res) :
    res.w.status = 400 ∨ (res.w.status = 200 ∧ res.panicked = true) := by
  unfold prepareResponse at h
  by_cases hh : req.hash = ""
  · simp only [hh, if_true, Prepared.replied.injEq] at h
    subst h
    exact Or.inl (httpError_status _ _ _ (by decide) rfl)
  · simp only [hh, if_false] at h
    cases hs : env.GetSessionByHash req.hash with
    | error e =>
      simp only [hs, Prepared.replied.injEq] at h
      subst h
      exact Or.inl (httpError_status _ _ _ (by decide) rfl)
    | ok session' =>
      simp only [hs] at h
      cases hf : loadFile env req.fileID with
      | error e =>
        simp only [hf, Prepared.replied.injEq] at h
        subst h
        exact Or.inl (httpError_status _ _ _ (by decide) rfl)
      | ok file' =>
        simp only [hf] at h
        cases hr : rangeWindow env file' req.Range
            (ctxHeader ResponseWriter.new "Accept-Ranges" "bytes") with
        | bad e =>
          simp only [hr, Prepared.replied.injEq] at h
          subst h
          exact Or.inl (httpError_status _ _ _ (by decide) rfl)
        | panic =>
          simp only [hr, Prepared.replied.injEq] at h
          subst h
          exact Or.inr ⟨rfl, rfl⟩
        | window a b w₀ => simp [hr] at h

/-- The status of every response of `GetFileStream` is 200, 206, 400 or 500. -/
theorem GetFileStream_status_cases (env : StreamEnv) (req : Request) :
    (GetFileStream env req).w.status = 200 ∨ (GetFileStream env req).w.status = 206 ∨
      (GetFileStream env req).w.status = 400 ∨ (GetFileStream env req).w.status = 500 := by
  cases hp : prepareResponse env req with
  | replied res =>
    have h := prepareResponse_replied env req res hp
    simp only [GetFileStream, hp]
    rcases h with h | h
    · exact Or.inr (Or.inr (Or.inl h))
    · exact Or.inl h.1
  | ready session file start finish w =>
    have hw := prepareResponse_ready env req session file start finish w hp
    rw [GetFileStream_of_ready _ _ _ _ _ _ _ hp]
    cases he : (streamStage env req session file start finish w).errorReply with
    | none =>
      have hf := streamStage_frame _ _ _ _ _ _ _ he
      rw [hf.1]
      rcases hw.1 with h | h
      · exact Or.inl h
      · exact Or.inr (Or.inl h)
    | some p =>
      obtain ⟨c, e⟩ := p
      have hf := streamStage_error _ _ _ _ _ _ _ _ _ he
      rw [hf.1]
      rcases hf.2 with rfl | rfl
      · exact Or.inr (Or.inr (Or.inl (httpError_status _ _ _ (by decide) hw.2)))
      · exact Or.inr (Or.inr (Or.inr (httpError_status _ _ _ (by decide) hw.2)))

/-! ## Range requests -/

/-- C1, as stated, fails: on the 10-byte file of scenario B the header `Range: bytes=0-`
parses to the range `0 .. 9`, but the bot-token lookup that follows fails and the handler
answers through `http.Error` with status 400, not 206. -/
theorem GetFileStream_partial_content_overridden :
    failingTokensEnv.rangeParse 10 "bytes=0-" = .ok [⟨0, 9⟩] ∧
      (GetFileStream failingTokensEnv (sampleRequest "GET" "bytes=0-")).w.status = 400 ∧
      ¬ (GetFileStream failingTokensEnv (sampleRequest "GET" "bytes=0-")).w.status = 206 := by
  refine ⟨rfl, ?_, ?_⟩
  · set_option maxRecDepth 4096 in decide
  · set_option maxRecDepth 4096 in decide

/-- C1, amended. A request that passes the hash check and the file lookup, with a non-empty
Range header that parses to the ranges `r :: rs`, is prepared with the window of `r` alone,
status 206, `Content-Range: bytes <r.Start>-<r.End>/<size>` and `Content-Length` the decimal
of `r.End - r.Start + 1` (computed in int64, exact when that number is an int64); the final
response keeps that status and those headers unless a later step answers through
`http.Error`. -/
theorem GetFileStream_partial_content (env : StreamEnv) (req : Request) (session : Session)
    (file : schemas.FileOutFull) (r : Range) (rs : List Range)
    (hhash : req.hash ≠ "") (hsession : env.GetSessionByHash req.hash = .ok session)
    (hfile : loadFile env req.fileID = .ok file) (hrange : req.Range ≠ "")
    (hparse : env.rangeParse file.Size req.Range = .ok (r :: rs)) :
    ∃ w, prepareResponse env req = .ready session file r.Start r.End w ∧
      w.status = 206 ∧
      headerGet w.header "Content-Range" = some ("bytes " ++ FormatInt r.Start ++ "-" ++
        FormatInt r.End ++ "/" ++ FormatInt file.Size) ∧
      headerGet w.header "Content-Length" = some (FormatInt (wrapInt64 (r.End - r.Start + 1))) ∧
      (isInt64 (r.End - r.Start + 1) →
        headerGet w.header "Content-Length" = some (FormatInt (r.End - r.Start + 1))) ∧
      ((GetFileStream env req).errorReply = none →
        (GetFileStream env req).w.status = 206 ∧ (GetFileStream env req).w.header = w.header) := by
  have hprep : prepareResponse env req = .ready session file r.Start r.End
      (setEntityHeaders env req file r.Start r.End
        ((ctxHeader (ctxHeader ResponseWriter.new "Accept-Ranges" "bytes") "Content-Range"
          ("bytes " ++ FormatInt r.Start ++ "-" ++ FormatInt r.End ++ "/" ++
            FormatInt file.Size)).WriteHeader 206)) := by
    simp [prepareResponse, hhash, hsession, hfile, rangeWindow, hrange, hparse]
  have hstatus : (setEntityHeaders env req file r.Start r.End
      ((ctxHeader (ctxHeader ResponseWriter.new "Accept-Ranges" "bytes") "Content-Range"
        ("bytes " ++ FormatInt r.Start ++ "-" ++ FormatInt r.End ++ "/" ++
          FormatInt file.Size)).WriteHeader 206)).status = 206 := by
    rw [setEntityHeaders_status]
    apply WriteHeader_status _ _ (by decide)
    rw [ctxHeader_written, ctxHeader_written]
    rfl
  have hlen := setEntityHeaders_contentLength env req file r.Start r.End
      ((ctxHeader (ctxHeader ResponseWriter.new "Accept-Ranges" "bytes") "Content-Range"
        ("bytes " ++ FormatInt r.Start ++ "-" ++ FormatInt r.End ++ "/" ++
          FormatInt file.Size)).WriteHeader 206)
  rw [contentLengthOf_eq] at hlen
  refine ⟨_, hprep, hstatus, ?_, hlen, ?_, ?_⟩
  · rw [setEntityHeaders_contentRange, WriteHeader_header]
    apply ctxHeader_get_same
    simp only [String.append_assoc]
    exact append_ne_empty_left _ _ (by decide)
  · intro hfit
    rw [hlen, wrapInt64_of_isInt64 hfit]
  · intro hok
    rw [GetFileStream_of_ready _ _ _ _ _ _ _ hprep] at hok ⊢
    have hframe := streamStage_frame _ _ _ _ _ _ _ hok
    exact ⟨hframe.1.trans hstatus, hframe.2⟩

/-- Scenario A: a file of 2_500_000 bytes, `Range: bytes=1500000-1999999`. -/
theorem GetFileStream_partial_content_witness :
    (GetFileStream scenarioA (sampleRequest "GET" "bytes=1500000-1999999")).w.status = 206 ∧
      headerGet (GetFileStream scenarioA (sampleRequest "GET" "bytes=1500000-1999999")).w.header
        "Content-Range" = some "bytes 1500000-1999999/2500000" ∧
      headerGet (GetFileStream scenarioA (sampleRequest "GET" "bytes=1500000-1999999")).w.header
        "Content-Length" = some "500000" := by
  obtain ⟨w, _, _, hcr, _, hcl, hfinal⟩ :=
    GetFileStream_partial_content scenarioA (sampleRequest "GET" "bytes=1500000-1999999")
      { UserId := 7, Session := "session-7" }
      (sampleMap (sampleFile 2500000 [⟨1⟩, ⟨2⟩, ⟨3⟩])) ⟨1500000, 1999999⟩ []
      (by decide) rfl rfl (by decide) rfl
  have hok : (GetFileStream scenarioA
      (sampleRequest "GET" "bytes=1500000-1999999")).errorReply = none := by decide
  obtain ⟨hstatus, hheader⟩ := hfinal hok
  refine ⟨hstatus, ?_, ?_⟩
  · rw [hheader, hcr]
    decide
  · rw [hheader, hcl (by decide)]
    decide

/-- C2, as stated, fails: a GET without Range header for the 10-byte file of scenario B,
on a platform that does not deliver the part messages, is answered through `http.Error`
with status 500 and the content type of an error reply, not 200. -/
theorem GetFileStream_full_content_overridden :
    (GetFileStream failingPartsEnv (sampleRequest "GET" "")).errorReply =
        some (500, "rpc error: CHANNEL_INVALID") ∧
      (GetFileStream failingPartsEnv (sampleRequest "GET" "")).w.status = 500 ∧
      ¬ (GetFileStream failingPartsEnv (sampleRequest "GET" "")).w.status = 200 := by
  refine ⟨?_, ?_, ?_⟩
  · set_option maxRecDepth 4096 in decide
  · set_option maxRecDepth 4096 in decide
  · set_option maxRecDepth 4096 in decide

/-- C2, amended. A request that passes the hash check and the file lookup and has no Range
header is prepared with the window `0 .. size - 1`, status 200, no `Content-Range` header and
`Content-Length` the decimal of the size; the final response keeps that status and those
headers unless a later step answers through `http.Error`. -/
theorem GetFileStream_full_content (env : StreamEnv) (req : Request) (session : Session)
    (file : schemas.FileOutFull)
    (hhash : req.hash ≠ "") (hsession : env.GetSessionByHash req.hash = .ok session)
    (hfile : loadFile env req.fileID = .ok file) (hrange : req.Range = "")
    (hsize : 0 ≤ file.Size ∧ file.Size < 2 ^ 63) :
    ∃ w, prepareResponse env req = .ready session file 0 (file.Size - 1) w ∧
      w.status = 200 ∧
      headerGet w.header "Content-Range" = none ∧
      headerGet w.header "Content-Length" = some (FormatInt file.Size) ∧
      ((GetFileStream env req).errorReply = none →
        (GetFileStream env req).w.status = 200 ∧ (GetFileStream env req).w.header = w.header) := by
  have hend : wrapInt64 (file.Size - 1) = file.Size - 1 :=
    wrapInt64_of_isInt64 (by unfold isInt64; omega)
  have hprep : prepareResponse env req = .ready session file 0 (file.Size - 1)
      (setEntityHeaders env req file 0 (file.Size - 1)
        ((ctxHeader ResponseWriter.new "Accept-Ranges" "bytes").WriteHeader 200)) := by
    simp [prepareResponse, hhash, hsession, hfile, rangeWindow, hrange, hend]
  have hstatus : (setEntityHeaders env req file 0 (file.Size - 1)
      ((ctxHeader ResponseWriter.new "Accept-Ranges" "bytes").WriteHeader 200)).status = 200 := by
    rw [setEntityHeaders_status]
    apply WriteHeader_status _ _ (by decide)
    rw [ctxHeader_written]
    rfl
  have hlen := setEntityHeaders_contentLength env req file 0 (file.Size - 1)
      ((ctxHeader ResponseWriter.new "Accept-Ranges" "bytes").WriteHeader 200)
  have hcl : contentLengthOf 0 (file.Size - 1) = file.Size := by
    rw [contentLengthOf_eq]
    have h : file.Size - 1 - 0 + 1 = file.Size := by omega
    rw [h]
    exact wrapInt64_of_isInt64 (by unfold isInt64; omega)
  rw [hcl] at hlen
  refine ⟨_, hprep, hstatus, ?_, hlen, ?_⟩
  · rw [setEntityHeaders_contentRange, WriteHeader_header]
    rfl
  · intro hok
    rw [GetFileStream_of_ready _ _ _ _ _ _ _ hprep] at hok ⊢
    have hframe := streamStage_frame _ _ _ _ _ _ _ hok
    exact ⟨hframe.1.trans hstatus, hframe.2⟩

/-- Scenario B: a file of 10 bytes, no Range header. -/
theorem GetFileStream_full_content_witness :
    (GetFileStream scenarioB (sampleRequest "GET" "")).w.status = 200 ∧
      headerGet (GetFileStream scenarioB (sampleRequest "GET" "")).w.header "Content-Range" =
        none ∧
      headerGet (GetFileStream scenarioB (sampleRequest "GET" "")).w.header "Content-Length" =
        some "10" ∧
      (GetFileStream scenarioB (sampleRequest "GET" "")).w.body.length = 10 := by
  obtain ⟨w, _, _, hcr, hcl, hfinal⟩ :=
    GetFileStream_full_content scenarioB (sampleRequest "GET" "")
      { UserId := 7, Session := "session-7" } (sampleMap (sampleFile 10 [⟨1⟩]))
      (by decide) rfl rfl rfl (by decide)
  have hok : (GetFileStream scenarioB (sampleRequest "GET" "")).errorReply = none := by decide
  obtain ⟨hstatus, hheader⟩ := hfinal hok
  refine ⟨hstatus, ?_, ?_, by decide⟩
  · rw [hheader, hcr]
  · rw [hheader, hcl]
    decide

/-- C3, as stated, fails: on the 10-byte file of scenario B the range parser rejects
`Range: bytes=10-` as unsatisfiable, and the handler answers 400, not 416. -/
theorem GetFileStream_unsatisfiable_is_400 :
    scenarioB.rangeParse 10 "bytes=10-" = .error "unsatisfiable range" ∧
      (GetFileStream scenarioB (sampleRequest "GET" "bytes=10-")).w.status = 400 ∧
      ¬ (GetFileStream scenarioB (sampleRequest "GET" "bytes=10-")).w.status = 416 :=
  ⟨rfl, by decide, by decide⟩

/-- C3, amended. A request that passes the hash check and the file lookup, with a non-empty
Range header that the range parser rejects with error `e`, is answered through
`http.Error` with status 400 and the message `e`, before any worker or platform call; and
no request at all is answered with status 416. -/
theorem GetFileStream_rejected_range (env : StreamEnv) (req : Request) (session : Session)
    (file : schemas.FileOutFull) (e : String)
    (hhash : req.hash ≠ "") (hsession : env.GetSessionByHash req.hash = .ok session)
    (hfile : loadFile env req.fileID = .ok file) (hrange : req.Range ≠ "")
    (hparse : env.rangeParse file.Size req.Range = .error e) :
    (GetFileStream env req).w.status = 400 ∧
      (GetFileStream env req).errorReply = some (400, e) ∧
      (GetFileStream env req).w.body = utf8 (e ++ "\n") ∧
      (GetFileStream env req).calls = [] ∧
      ∀ (env' : StreamEnv) (req' : Request), (GetFileStream env' req').w.status ≠ 416 := by
  have hprep : prepareResponse env req = .replied (StreamResult.fail
      (ctxHeader ResponseWriter.new "Accept-Ranges" "bytes") [] e 400) := by
    simp [prepareResponse, hhash, hsession, hfile, rangeWindow, hrange, hparse]
  have hres : GetFileStream env req = StreamResult.fail
      (ctxHeader ResponseWriter.new "Accept-Ranges" "bytes") [] e 400 := by
    simp [GetFileStream, hprep]
  rw [hres]
  refine ⟨httpError_status _ _ _ (by decide) rfl, rfl, rfl, rfl, ?_⟩
  intro env' req' h416
  rcases GetFileStream_status_cases env' req' with h | h | h | h <;> omega

/-- The rejected range of scenario B. -/
theorem GetFileStream_rejected_range_witness :
    (GetFileStream scenarioB (sampleRequest "HEAD" "bytes=10-")).w.status = 400 ∧
      (GetFileStream scenarioB (sampleRequest "HEAD" "bytes=10-")).errorReply =
        some (400, "unsatisfiable range") :=
  have h := GetFileStream_rejected_range scenarioB (sampleRequest "HEAD" "bytes=10-")
    { UserId := 7, Session := "session-7" } (sampleMap (sampleFile 10 [⟨1⟩]))
    "unsatisfiable range" (by decide) rfl rfl (by decide) rfl
  ⟨h.1, h.2.1⟩

/-! ## ETag -/

theorem etagValue_ne_empty (md5FromString : String → String) (id : String) (size : Int) :
    etagValue md5FromString id size ≠ "" := by
  unfold etagValue
  rw [String.append_assoc]
  exact append_ne_empty_left _ _ (by decide)

/-- The header `E-Tag` of a prepared response holds `etagValue` of the file's id and size. -/
theorem setEntityHeaders_etag (env : StreamEnv) (req : Request) (file : schemas.FileOutFull)
    (start finish : Int) (w : ResponseWriter) :
    headerGet (setEntityHeaders env req file start finish w).header "E-Tag" =
      some (etagValue env.md5FromString file.ID file.Size) := by
  unfold setEntityHeaders
  simp only []
  rw [ctxHeader_get_other _ _ _ _ (by decide), ctxHeader_get_other _ _ _ _ (by decide),
    ctxHeader_get_same _ _ _ (etagValue_ne_empty _ _ _)]

/-- C4, as stated, fails: the pairs `("a1", 2)` and `("a", 12)` differ, yet both give the
hashed string `a12` and so the same ETag value, whatever the digest function. -/
theorem etagValue_collision :
    ("a1" ++ FormatInt 2 = "a" ++ FormatInt 12) ∧
      (∀ md5FromString : String → String,
        etagValue md5FromString "a1" 2 = etagValue md5FromString "a" 12) ∧
      ¬ ("a1" = "a" ∧ (2 : Int) = 12) := by
  have h : "a1" ++ FormatInt 2 = "a" ++ FormatInt 12 := by decide
  refine ⟨h, ?_, by decide⟩
  intro md5FromString
  unfold etagValue
  rw [h]

/-- C4, amended. The ETag value the handler sets depends on nothing but the string
`id ++ decimal(size)`: it is `etagValue` of the file's id and size whatever the request, the
byte window and the writer are, and two files with the same such string (the same id and
size in particular) get the same value. -/
theorem etag_depends_on_id_and_size (env : StreamEnv) (req₁ req₂ : Request)
    (file₁ file₂ : schemas.FileOutFull) (start₁ finish₁ start₂ finish₂ : Int)
    (w₁ w₂ : ResponseWriter)
    (h : file₁.ID ++ FormatInt file₁.Size = file₂.ID ++ FormatInt file₂.Size) :
    headerGet (setEntityHeaders env req₁ file₁ start₁ finish₁ w₁).header "E-Tag" =
        some (etagValue env.md5FromString file₁.ID file₁.Size) ∧
      headerGet (setEntityHeaders env req₁ file₁ start₁ finish₁ w₁).header "E-Tag" =
        headerGet (setEntityHeaders env req₂ file₂ start₂ finish₂ w₂).header "E-Tag" := by
  refine ⟨setEntityHeaders_etag _ _ _ _ _ _, ?_⟩
  rw [setEntityHeaders_etag, setEntityHeaders_etag]
  unfold etagValue
  rw [h]

/-- The files `("a1", 2)` and `("a", 12)` under different requests and windows. -/
theorem etag_depends_on_id_and_size_witness :
    headerGet (setEntityHeaders scenarioA (sampleRequest "GET" "")
        { sampleMap (sampleFile 2 []) with ID := "a1" } 0 1 ResponseWriter.new).header "E-Tag" =
      headerGet (setEntityHeaders scenarioA (sampleRequest "HEAD" "bytes=0-")
        { sampleMap (sampleFile 12 []) with ID := "a" } 0 11 ResponseWriter.new).header "E-Tag" :=
  (etag_depends_on_id_and_size scenarioA (sampleRequest "GET" "") (sampleRequest "HEAD" "bytes=0-")
    { sampleMap (sampleFile 2 []) with ID := "a1" } { sampleMap (sampleFile 12 []) with ID := "a" }
    0 1 0 11 ResponseWriter.new ResponseWriter.new (by decide)).2

/-- C5: the code under test. For scenario B without a Range header the response carries
the headers `Accept-Ranges`, `Content-Type`, `Content-Length`, `E-Tag`, `Last-Modified` and
`Content-Disposition`: the quoted digest of `f110` sits under the name `E-Tag`, and there is
no header named `ETag`. -/
theorem GetFileStream_header_names :
    headerNames (GetFileStream scenarioB (sampleRequest "GET" "")).w.header =
        ["Accept-Ranges", "Content-Type", "Content-Length", "E-Tag", "Last-Modified",
          "Content-Disposition"] ∧
      headerGet (GetFileStream scenarioB (sampleRequest "GET" "")).w.header "ETag" = none ∧
      headerGet (GetFileStream scenarioB (sampleRequest "GET" "")).w.header "E-Tag" =
        some ("\"" ++ scenarioB.md5FromString ("f1" ++ "10") ++ "\"") := by
  decide

/-! ## Zero-byte files -/

theorem ioCopyN_zero (w : ResponseWriter) (src : List UInt8) : ioCopyN w src 0 = w := by
  simp [ioCopyN]

/-- Case analysis of the credential-and-body stage, for two requests that may differ in
their method: both runs panic alike, or answer through `http.Error` alike, or take the lazy
branch, or reach the body of a warm worker with the same client, acting user and calls. -/
theorem streamStage_rel (R : StreamResult → StreamResult → Prop) (env : StreamEnv)
    (req₁ req₂ : Request) (session : Session) (file : schemas.FileOutFull)
    (start finish : Int) (w : ResponseWriter)
    (hpanic : ∀ calls : List Call, (∀ c ∈ calls, c.servesBody = false) →
      R { w := w, calls := calls, errorReply := none, panicked := true }
        { w := w, calls := calls, errorReply := none, panicked := true })
    (hfail : ∀ (calls : List Call) (e : String) (code : Int),
      (∀ c ∈ calls, c.servesBody = false) → (code = 400 ∨ code = 500) →
      R (StreamResult.fail w calls e code) (StreamResult.fail w calls e code))
    (hlazy : ∀ (tokens : List String) (channelID : Int),
      R (lazyStream env req₁ file tokens channelID start finish w)
        (lazyStream env req₂ file tokens channelID start finish w))
    (hwarm : ∀ (client : tgc.Client) (channelUser : String) (calls : List Call),
      (∀ c ∈ calls, c.servesBody = false) →
      R (warmBody env req₁ file client channelUser start finish w calls)
        (warmBody env req₂ file client channelUser start finish w calls)) :
    R (streamStage env req₁ session file start finish w)
      (streamStage env req₂ session file start finish w) := by
  unfold streamStage
  cases hch : file.ChannelID with
  | none => exact hpanic [] (by simp)
  | some channelID =>
    simp only []
    cases htok : env.GetBotsToken session.UserId channelID with
    | error e => exact hfail [] e 400 (by simp) (Or.inl rfl)
    | ok tokens =>
      simp only []
      by_cases hlz : env.config.LazyStreamBots = true
      · simp only [hlz, if_true]
        exact hlazy tokens channelID
      · simp only [hlz, Bool.false_eq_true, if_false]
        unfold warmStream
        by_cases hu : env.config.DisableStreamBots = true ∨ tokens.length = 0
        · rw [if_pos hu, if_pos hu]
          cases hw : env.UserWorker (telegram.Client.user session.Session) with
          | error e =>
            simp only [hw]
            refine hfail _ e 500 ?_ (Or.inr rfl)
            simp [Call.servesBody]
          | ok client =>
            simp only [hw]
            refine hwarm client _ _ ?_
            simp [Call.servesBody]
        · rw [if_neg hu, if_neg hu]
          by_cases hl : min (tokens.length : Int) env.config.BgBotsLimit < 0
          · simp only [hl, if_true]
            exact hpanic [] (by simp)
          · simp only [hl, if_false]
            cases hn : env.StreamWorkersNext
                (List.take (min (tokens.length : Int) env.config.BgBotsLimit).toNat tokens)
                channelID with
            | error e =>
              simp only [hn]
              refine hfail _ e 500 ?_ (Or.inr rfl)
              simp [Call.servesBody]
            | ok p =>
              obtain ⟨client, index⟩ := p
              simp only [hn]
              by_cases hi : index < 0
              · simp only [hi, if_true]
                refine hpanic _ ?_
                simp [Call.servesBody]
              · simp only [hi, if_false]
                cases ht : tokens[index.toNat]? with
                | none =>
                  simp only [ht]
                  refine hpanic _ ?_
                  simp [Call.servesBody]
                | some token =>
                  simp only [ht]
                  refine hwarm client _ _ ?_
                  simp [Call.servesBody]

/-- Case analysis of the credential-and-body stage for one request. -/
theorem streamStage_cases (P : StreamResult → Prop) (env : StreamEnv) (req : Request)
    (session : Session) (file : schemas.FileOutFull) (start finish : Int) (w : ResponseWriter)
    (hpanic : ∀ calls : List Call, (∀ c ∈ calls, c.servesBody = false) →
      P { w := w, calls := calls, errorReply := none, panicked := true })
    (hfail : ∀ (calls : List Call) (e : String) (code : Int),
      (∀ c ∈ calls, c.servesBody = false) → (code = 400 ∨ code = 500) →
      P (StreamResult.fail w calls e code))
    (hlazy : ∀ (tokens : List String) (channelID : Int),
      P (lazyStream env req file tokens channelID start finish w))
    (hwarm : ∀ (client : tgc.Client) (channelUser : String) (calls : List Call),
      (∀ c ∈ calls, c.servesBody = false) →
      P (warmBody env req file client channelUser start finish w calls)) :
    P (streamStage env req session file start finish w) :=
  streamStage_rel (fun r _ => P r) env req req session file start finish w hpanic hfail hlazy
    hwarm

theorem lazyStream_head (env : StreamEnv) (req : Request) (file : schemas.FileOutFull)
    (tokens : List String) (channelID start finish : Int) (w : ResponseWriter)
    (hm : req.Method = "HEAD") :
    (lazyStream env req file tokens channelID start finish w).w = w ∧
      ∀ c ∈ (lazyStream env req file tokens channelID start finish w).calls,
        c.servesBody = false := by
  unfold lazyStream
  cases hn : env.WorkersNext tokens channelID with
  | none => simp [Call.servesBody]
  | some token => simp [hm, Call.servesBody]

theorem warmBody_head (env : StreamEnv) (req : Request) (file : schemas.FileOutFull)
    (client : tgc.Client) (channelUser : String) (start finish : Int) (w : ResponseWriter)
    (calls : List Call) (hm : req.Method = "HEAD") :
    warmBody env req file client channelUser start finish w calls =
      { w := w, calls := calls, errorReply := none, panicked := false } := by
  simp [warmBody, hm]

/-- The body of a request other than HEAD on a warm worker: a 500 reply carrying the error
of `getParts`, or a copy from the reader that leaves status and headers alone. -/
theorem warmBody_get (env : StreamEnv) (req : Request) (file : schemas.FileOutFull)
    (client : tgc.Client) (channelUser : String) (start finish : Int) (w : ResponseWriter)
    (calls : List Call) (hm : req.Method ≠ "HEAD") :
    (∃ e, env.getParts client.Tg file channelUser = .error e ∧
        warmBody env req file client channelUser start finish w calls =
          StreamResult.fail w (calls ++ [Call.getParts client.Tg channelUser]) e 500) ∨
      (∃ parts, env.getParts client.Tg file channelUser = .ok parts ∧
        warmBody env req file client channelUser start finish w calls =
          { w := ioCopyN w (env.readerBytes client.Tg (env.rangedParts parts start finish)
              (contentLengthOf start finish)) (contentLengthOf start finish),
            calls := calls ++ [Call.getParts client.Tg channelUser,
              Call.rangedParts start finish,
              Call.NewLinearReader client.Tg (contentLengthOf start finish),
              Call.CopyN (contentLengthOf start finish)],
            errorReply := none, panicked := false }) := by
  unfold warmBody copyParts
  cases hg : env.getParts client.Tg file channelUser with
  | error e => exact Or.inl ⟨e, rfl, by simp [hm]⟩
  | ok parts => exact Or.inr ⟨parts, rfl, by simp [hm]⟩

/-- The lazy branch for a request other than HEAD: a panic when no token comes back, else
the authorised callback is run, and the writer changes by a copy from the reader at most. -/
theorem lazyStream_get (env : StreamEnv) (req : Request) (file : schemas.FileOutFull)
    (tokens : List String) (channelID start finish : Int) (w : ResponseWriter)
    (hm : req.Method ≠ "HEAD") :
    ((lazyStream env req file tokens channelID start finish w).panicked = true ∨
        ∃ client token, Call.RunWithAuth client token ∈
          (lazyStream env req file tokens channelID start finish w).calls) ∧
      ((lazyStream env req file tokens channelID start finish w).w = w ∨
        ∃ src, (lazyStream env req file tokens channelID start finish w).w =
          ioCopyN w src (contentLengthOf start finish)) := by
  unfold lazyStream
  cases hn : env.WorkersNext tokens channelID with
  | none => simp
  | some token =>
    cases hr : env.RunWithAuth (telegram.Client.bot token) token with
    | some e => simp [hm, hr]
    | none =>
      unfold copyParts
      cases hg : env.getParts (telegram.Client.bot token) file (splitFirst token) with
      | error e => simp [hm, hr, hg]
      | ok parts =>
        simp only [hm, hr, hg, ne_eq, not_false_eq_true, if_true]
        refine ⟨Or.inr ⟨telegram.Client.bot token, token, by simp⟩, Or.inr ⟨_, rfl⟩⟩

/-- With a content length of zero, a run of the credential-and-body stage that does not
answer through `http.Error` leaves the writer untouched. -/
theorem streamStage_zero (env : StreamEnv) (req : Request) (session : Session)
    (file : schemas.FileOutFull) (start finish : Int) (w : ResponseWriter)
    (hz : contentLengthOf start finish = 0) :
    (streamStage env req session file start finish w).errorReply = none →
      (streamStage env req session file start finish w).w = w := by
  apply streamStage_cases (fun r => r.errorReply = none → r.w = w)
  · intro calls _ _
    rfl
  · intro calls e code _ _ h
    simp [StreamResult.fail] at h
  · intro tokens channelID _
    by_cases hm : req.Method = "HEAD"
    · exact (lazyStream_head _ _ _ _ _ _ _ _ hm).1
    · rcases (lazyStream_get env req file tokens channelID start finish w hm).2 with h | ⟨src, h⟩
      · exact h
      · rw [h, hz, ioCopyN_zero]
  · intro client channelUser calls _ h
    by_cases hm : req.Method = "HEAD"
    · rw [warmBody_head _ _ _ _ _ _ _ _ _ hm]
    · rcases warmBody_get env req file client channelUser start finish w calls hm with
        ⟨e, _, hb⟩ | ⟨parts, _, hb⟩
      · rw [hb] at h
        simp [StreamResult.fail] at h
      · rw [hb, hz, ioCopyN_zero]

/-- A request other than HEAD that the credential-and-body stage serves without an error
reply and without a panic has run the authorised callback or fetched the part list. -/
theorem streamStage_calls_platform (env : StreamEnv) (req : Request) (session : Session)
    (file : schemas.FileOutFull) (start finish : Int) (w : ResponseWriter)
    (hm : req.Method ≠ "HEAD") :
    (streamStage env req session file start finish w).errorReply = none →
      (streamStage env req session file start finish w).panicked = false →
      (∃ client token, Call.RunWithAuth client token ∈
          (streamStage env req session file start finish w).calls) ∨
        (∃ client user, Call.getParts client user ∈
          (streamStage env req session file start finish w).calls) := by
  apply streamStage_cases (fun r => r.errorReply = none → r.panicked = false →
    (∃ client token, Call.RunWithAuth client token ∈ r.calls) ∨
      (∃ client user, Call.getParts client user ∈ r.calls))
  · intro calls _ _ h
    simp at h
  · intro calls e code _ _ h
    simp [StreamResult.fail] at h
  · intro tokens channelID _ hp
    rcases (lazyStream_get env req file tokens channelID start finish w hm).1 with h | h
    · rw [h] at hp
      simp at hp
    · exact Or.inl h
  · intro client channelUser calls _ h _
    rcases warmBody_get env req file client channelUser start finish w calls hm with
      ⟨e, _, hb⟩ | ⟨parts, _, hb⟩
    · rw [hb] at h
      simp [StreamResult.fail] at h
    · rw [hb]
      exact Or.inr ⟨client.Tg, channelUser, by simp⟩

theorem ctxHeader_body (w : ResponseWriter) (k v : String) :
    (ctxHeader w k v).body = w.body := by
  unfold ctxHeader
  split <;> rfl

theorem WriteHeader_body (w : ResponseWriter) (code : Int) :
    (w.WriteHeader code).body = w.body := by
  unfold ResponseWriter.WriteHeader
  split
  · split <;> rfl
  · rfl

theorem setEntityHeaders_body (env : StreamEnv) (req : Request) (file : schemas.FileOutFull)
    (start finish : Int) (w : ResponseWriter) :
    (setEntityHeaders env req file start finish w).body = w.body := by
  simp [setEntityHeaders, ctxHeader_body]

/-- C6, as stated, fails: a GET without Range for the zero-byte file of `emptyFileEnv`
is answered 200 with `Content-Length: 0` and an empty body, but on the way the handler
logs the user in, takes the user worker and fetches the part list. -/
theorem GetFileStream_empty_file_calls :
    (GetFileStream emptyFileEnv (sampleRequest "GET" "")).w.status = 200 ∧
      (GetFileStream emptyFileEnv (sampleRequest "GET" "")).w.body = [] ∧
      (GetFileStream emptyFileEnv (sampleRequest "GET" "")).calls =
        [Call.UserLogin "session-7", Call.UserWorker (.user "session-7"),
          Call.getParts (.user "session-7") "7", Call.rangedParts 0 (-1),
          Call.NewLinearReader (.user "session-7") 0, Call.CopyN 0] := by
  decide

/-- C6, amended. A request without Range header for a file of size 0 that passes the hash
check and the file lookup is prepared with the window `0 .. -1`, status 200,
`Content-Length: 0` and an empty body, and the final response is that prepared one unless a
later step answers through `http.Error`. The handler does not skip its later steps for such
a file: a request other than HEAD served without error reply and without panic has run the
authorised callback or fetched the part list. -/
theorem GetFileStream_empty_file (env : StreamEnv) (req : Request) (session : Session)
    (file : schemas.FileOutFull)
    (hhash : req.hash ≠ "") (hsession : env.GetSessionByHash req.hash = .ok session)
    (hfile : loadFile env req.fileID = .ok file) (hrange : req.Range = "")
    (hsize : file.Size = 0) :
    ∃ w, prepareResponse env req = .ready session file 0 (-1) w ∧
      w.status = 200 ∧ w.body = [] ∧
      headerGet w.header "Content-Length" = some "0" ∧
      ((GetFileStream env req).errorReply = none → (GetFileStream env req).w = w) ∧
      (req.Method ≠ "HEAD" → (GetFileStream env req).errorReply = none →
        (GetFileStream env req).panicked = false →
        (∃ client token, Call.RunWithAuth client token ∈ (GetFileStream env req).calls) ∨
          (∃ client user, Call.getParts client user ∈ (GetFileStream env req).calls)) := by
  have hend : wrapInt64 (file.Size - 1) = -1 := by rw [hsize]; decide
  have hprep : prepareResponse env req = .ready session file 0 (-1)
      (setEntityHeaders env req file 0 (-1)
        ((ctxHeader ResponseWriter.new "Accept-Ranges" "bytes").WriteHeader 200)) := by
    simp [prepareResponse, hhash, hsession, hfile, rangeWindow, hrange, hend]
  have hz : contentLengthOf 0 (-1) = 0 := by decide
  have hlen := setEntityHeaders_contentLength env req file 0 (-1)
      ((ctxHeader ResponseWriter.new "Accept-Ranges" "bytes").WriteHeader 200)
  rw [hz] at hlen
  refine ⟨_, hprep, ?_, ?_, hlen, ?_, ?_⟩
  · rw [setEntityHeaders_status]
    apply WriteHeader_status _ _ (by decide)
    rw [ctxHeader_written]
    rfl
  · rw [setEntityHeaders_body, WriteHeader_body, ctxHeader_body]
    rfl
  · rw [GetFileStream_of_ready _ _ _ _ _ _ _ hprep]
    exact streamStage_zero _ _ _ _ _ _ _ hz
  · intro hm
    rw [GetFileStream_of_ready _ _ _ _ _ _ _ hprep]
    exact streamStage_calls_platform _ _ _ _ _ _ _ hm

/-- The zero-byte file of `emptyFileEnv`, requested with GET. -/
theorem GetFileStream_empty_file_witness :
    (GetFileStream emptyFileEnv (sampleRequest "GET" "")).w.status = 200 ∧
      headerGet (GetFileStream emptyFileEnv (sampleRequest "GET" "")).w.header
        "Content-Length" = some "0" ∧
      (GetFileStream emptyFileEnv (sampleRequest "GET" "")).w.body = [] ∧
      ((∃ client token, Call.RunWithAuth client token ∈
          (GetFileStream emptyFileEnv (sampleRequest "GET" "")).calls) ∨
        (∃ client user, Call.getParts client user ∈
          (GetFileStream emptyFileEnv (sampleRequest "GET" "")).calls)) := by
  obtain ⟨w, _, hstatus, hbody, hlen, hfinal, hcalls⟩ :=
    GetFileStream_empty_file emptyFileEnv (sampleRequest "GET" "")
      { UserId := 7, Session := "session-7" } (sampleMap (sampleFile 0 []))
      (by decide) rfl rfl rfl rfl
  have hok : (GetFileStream emptyFileEnv (sampleRequest "GET" "")).errorReply = none := by
    decide
  rw [hfinal hok]
  exact ⟨hstatus, hlen, hbody, hcalls (by decide) hok (by decide)⟩

/-! ## HEAD and GET -/

/-- The preparation of the response does not read the request method. -/
theorem prepareResponse_method (env : StreamEnv) (req : Request) (m₁ m₂ : String) :
    prepareResponse env { req with Method := m₁ } =
      prepareResponse env { req with Method := m₂ } := rfl

/-- A prepared response belongs to the file the lookup returned and has no body yet. -/
theorem prepareResponse_ready_file (env : StreamEnv) (req : Request) (session : Session)
    (file : schemas.FileOutFull) (start finish : Int) (w : ResponseWriter)
    (h : prepareResponse env req = .ready session file start finish w) :
    loadFile env req.fileID = .ok file ∧ w.body = [] := by
  unfold prepareResponse at h
  by_cases hh : req.hash = ""
  · simp [hh] at h
  · simp only [hh, if_false] at h
    cases hs : env.GetSessionByHash req.hash with
    | error e => simp [hs] at h
    | ok session' =>
      simp only [hs] at h
      cases hf : loadFile env req.fileID with
      | error e => simp [hf] at h
      | ok file' =>
        simp only [hf] at h
        cases hr : rangeWindow env file' req.Range
            (ctxHeader ResponseWriter.new "Accept-Ranges" "bytes") with
        | bad e => simp [hr] at h
        | panic => simp [hr] at h
        | window a b w₀ =>
          simp only [hr, Prepared.ready.injEq] at h
          obtain ⟨_, rfl, _, _, rfl⟩ := h
          refine ⟨rfl, ?_⟩
          rw [setEntityHeaders_body]
          unfold rangeWindow at hr
          by_cases hx : req.Range = ""
          · simp only [hx, if_true, RangeOutcome.window.injEq] at hr
            obtain ⟨_, _, rfl⟩ := hr
            rw [WriteHeader_body, ctxHeader_body]
            rfl
          · simp only [hx, if_false] at hr
            cases hp : env.rangeParse file'.Size req.Range with
            | error e => simp [hp] at hr
            | ok rs =>
              cases rs with
              | nil => simp [hp] at hr
              | cons r rs =>
                simp only [hp, RangeOutcome.window.injEq] at hr
                obtain ⟨_, _, rfl⟩ := hr
                rw [WriteHeader_body, ctxHeader_body, ctxHeader_body]
                rfl

/-- A request answered during preparation has made no call, and has an empty body unless
it is an error reply. -/
theorem prepareResponse_replied_calls (env : StreamEnv) (req : Request) (res : StreamResult)
    (h : prepareResponse env req = .replied res) :
    res.calls = [] ∧ (res.errorReply = none → res.w.body = []) := by
  unfold prepareResponse at h
  by_cases hh : req.hash = ""
  · simp only [hh, if_true, Prepared.replied.injEq] at h
    subst h
    exact ⟨rfl, fun h => by simp [StreamResult.fail] at h⟩
  · simp only [hh, if_false] at h
    cases hs : env.GetSessionByHash req.hash with
    | error e =>
      simp only [hs, Prepared.replied.injEq] at h
      subst h
      exact ⟨rfl, fun h => by simp [StreamResult.fail] at h⟩
    | ok session' =>
      simp only [hs] at h
      cases hf : loadFile env req.fileID with
      | error e =>
        simp only [hf, Prepared.replied.injEq] at h
        subst h
        exact ⟨rfl, fun h => by simp [StreamResult.fail] at h⟩
      | ok file' =>
        simp only [hf] at h
        cases hr : rangeWindow env file' req.Range
            (ctxHeader ResponseWriter.new "Accept-Ranges" "bytes") with
        | bad e =>
          simp only [hr, Prepared.replied.injEq] at h
          subst h
          exact ⟨rfl, fun h => by simp [StreamResult.fail] at h⟩
        | panic =>
          simp only [hr, Prepared.replied.injEq] at h
          subst h
          refine ⟨rfl, fun _ => ?_⟩
          simp only []
          rw [ctxHeader_body]
          rfl
        | window a b w₀ => simp [hr] at h

/-- HEAD against GET in the credential-and-body stage. -/
theorem streamStage_head_get (env : StreamEnv) (req₁ req₂ : Request) (session : Session)
    (file : schemas.FileOutFull) (start finish : Int) (w : ResponseWriter)
    (h₁ : req₁.Method = "HEAD") (h₂ : req₂.Method ≠ "HEAD") :
    (∀ c ∈ (streamStage env req₁ session file start finish w).calls, c.servesBody = false) ∧
      ((streamStage env req₁ session file start finish w).errorReply = none →
        (streamStage env req₁ session file start finish w).w = w) ∧
      (((streamStage env req₁ session file start finish w).w.status =
            (streamStage env req₂ session file start finish w).w.status ∧
          (streamStage env req₁ session file start finish w).w.header =
            (streamStage env req₂ session file start finish w).w.header) ∨
        ((streamStage env req₁ session file start finish w).errorReply = none ∧
          ∃ client user e, env.getParts client file user = .error e ∧
            (streamStage env req₂ session file start finish w).errorReply = some (500, e))) := by
  apply streamStage_rel (fun r₁ r₂ => (∀ c ∈ r₁.calls, c.servesBody = false) ∧
    (r₁.errorReply = none → r₁.w = w) ∧
    ((r₁.w.status = r₂.w.status ∧ r₁.w.header = r₂.w.header) ∨
      (r₁.errorReply = none ∧ ∃ client user e, env.getParts client file user = .error e ∧
        r₂.errorReply = some (500, e))))
  · intro calls hc
    exact ⟨hc, fun _ => rfl, Or.inl ⟨rfl, rfl⟩⟩
  · intro calls e code hc _
    refine ⟨hc, ?_, Or.inl ⟨rfl, rfl⟩⟩
    intro h
    simp [StreamResult.fail] at h
  · intro tokens channelID
    have hh := lazyStream_head env req₁ file tokens channelID start finish w h₁
    have hf₁ := lazyStream_frame env req₁ file tokens channelID start finish w
    have hf₂ := lazyStream_frame env req₂ file tokens channelID start finish w
    exact ⟨hh.2, fun _ => hh.1, Or.inl ⟨hf₁.2.1.trans hf₂.2.1.symm, hf₁.2.2.trans hf₂.2.2.symm⟩⟩
  · intro client channelUser calls hc
    rw [warmBody_head _ _ _ _ _ _ _ _ _ h₁]
    refine ⟨hc, fun _ => rfl, ?_⟩
    rcases warmBody_get env req₂ file client channelUser start finish w calls h₂ with
      ⟨e, hg, hb⟩ | ⟨parts, _, hb⟩
    · right
      rw [hb]
      exact ⟨rfl, client.Tg, channelUser, e, hg, rfl⟩
    · left
      rw [hb]
      exact ⟨(ioCopyN_status _ _ _).symm, (ioCopyN_header _ _ _).symm⟩

/-- C7, as stated, fails: when the platform does not deliver the part messages of scenario
B, the GET is answered 500 with the headers of an error reply, while the HEAD of the same
request, which never asks for the parts, is answered 200. -/
theorem GetFileStream_head_get_differ :
    (GetFileStream failingPartsEnv (sampleRequest "HEAD" "")).w.status = 200 ∧
      (GetFileStream failingPartsEnv (sampleRequest "GET" "")).w.status = 500 ∧
      headerGet (GetFileStream failingPartsEnv (sampleRequest "HEAD" "")).w.header
        "Content-Type" = some "video/mp4" ∧
      headerGet (GetFileStream failingPartsEnv (sampleRequest "GET" "")).w.header
        "Content-Type" = some "text/plain; charset=utf-8" := by
  decide

/-- C7, amended. For every request, the HEAD variant fetches no part list, builds no reader
and copies nothing, and without an error reply its body is empty; its status and headers
are those of the GET variant, except when the GET is answered 500 because `getParts`
failed for the file, a call the HEAD variant does not make. -/
theorem GetFileStream_head_get (env : StreamEnv) (req : Request) :
    (∀ c ∈ (GetFileStream env { req with Method := "HEAD" }).calls, c.servesBody = false) ∧
      ((GetFileStream env { req with Method := "HEAD" }).errorReply = none →
        (GetFileStream env { req with Method := "HEAD" }).w.body = []) ∧
      (((GetFileStream env { req with Method := "HEAD" }).w.status =
            (GetFileStream env { req with Method := "GET" }).w.status ∧
          (GetFileStream env { req with Method := "HEAD" }).w.header =
            (GetFileStream env { req with Method := "GET" }).w.header) ∨
        ((GetFileStream env { req with Method := "HEAD" }).errorReply = none ∧
          ∃ file client user e, loadFile env req.fileID = .ok file ∧
            env.getParts client file user = .error e ∧
            (GetFileStream env { req with Method := "GET" }).errorReply = some (500, e))) := by
  have hm := prepareResponse_method env req "HEAD" "GET"
  cases hp : prepareResponse env { req with Method := "GET" } with
  | replied res =>
    rw [hp] at hm
    have hH : GetFileStream env { req with Method := "HEAD" } = res := by
      simp [GetFileStream, hm]
    have hG : GetFileStream env { req with Method := "GET" } = res := by
      simp [GetFileStream, hp]
    rw [hH, hG]
    have hr := prepareResponse_replied_calls env _ res hp
    refine ⟨?_, hr.2, Or.inl ⟨rfl, rfl⟩⟩
    rw [hr.1]
    simp
  | ready session file start finish w =>
    rw [hp] at hm
    rw [GetFileStream_of_ready _ _ _ _ _ _ _ hm, GetFileStream_of_ready _ _ _ _ _ _ _ hp]
    have hfile := prepareResponse_ready_file _ _ _ _ _ _ _ hp
    obtain ⟨hc, hw, hcmp⟩ := streamStage_head_get env { req with Method := "HEAD" }
      { req with Method := "GET" } session file start finish w rfl
      (show "GET" ≠ "HEAD" by decide)
    refine ⟨hc, ?_, ?_⟩
    · intro h
      rw [hw h]
      exact hfile.2
    · rcases hcmp with h | ⟨h, client, user, e, hg, he⟩
      · exact Or.inl h
      · exact Or.inr ⟨h, file, client, user, e, hfile.1, hg, he⟩

/-! ## Credential selection -/

/-- With `LazyStreamBots` unset, `DisableStreamBots` or an empty token list sends the
request to the user credential: the calls begin with the user login and the user worker,
none of them installs or selects a bot token, and the part list is fetched by the user
worker's client with the decimal session user id as acting user. -/
theorem warmStream_user_fallback (env : StreamEnv) (req : Request) (session : Session)
    (file : schemas.FileOutFull) (tokens : List String) (channelID start finish : Int)
    (w : ResponseWriter)
    (h : env.config.DisableStreamBots = true ∨ tokens.length = 0) :
    (warmStream env req session file tokens channelID start finish w).calls.take 2 =
        [Call.UserLogin session.Session, Call.UserWorker (.user session.Session)] ∧
      (∀ c ∈ (warmStream env req session file tokens channelID start finish w).calls,
        ∀ ts ch tk, c ≠ Call.WorkersSet ts ch ∧ c ≠ Call.WorkersNext ch ∧
          c ≠ Call.BotLogin tk ∧ c ≠ Call.StreamWorkersSet ts ch ∧
          c ≠ Call.StreamWorkersNext ch) ∧
      (∀ client user,
        Call.getParts client user ∈
          (warmStream env req session file tokens channelID start finish w).calls →
        user = FormatInt session.UserId ∧
          ∃ worker, env.UserWorker (.user session.Session) = .ok worker ∧
            worker.Tg = client) := by
  unfold warmStream
  rw [if_pos h]
  cases hw : env.UserWorker (telegram.Client.user session.Session) with
  | error e => simp [hw, StreamResult.fail]
  | ok worker =>
    simp only [hw]
    by_cases hm : req.Method = "HEAD"
    · rw [warmBody_head _ _ _ _ _ _ _ _ _ hm]
      simp
    · rcases warmBody_get env req file worker (FormatInt session.UserId) start finish w
        [Call.UserLogin session.Session, Call.UserWorker (.user session.Session)] hm with
        ⟨e, _, hb⟩ | ⟨parts, _, hb⟩
      · rw [hb]
        simp only [StreamResult.fail]
        refine ⟨by simp, ?_, ?_⟩
        · intro c hc ts ch tk
          simp only [List.cons_append, List.nil_append, List.mem_cons, List.mem_singleton,
            List.not_mem_nil, or_false] at hc
          rcases hc with rfl | rfl | rfl <;> simp
        · intro client user hc
          simp only [List.cons_append, List.nil_append, List.mem_cons, List.mem_singleton,
            List.not_mem_nil, or_false, Call.getParts.injEq, reduceCtorEq, false_or] at hc
          exact ⟨hc.2, worker, rfl, hc.1.symm⟩
      · rw [hb]
        refine ⟨by simp, ?_, ?_⟩
        · intro c hc ts ch tk
          simp only [List.cons_append, List.nil_append, List.mem_cons, List.mem_singleton,
            List.not_mem_nil, or_false] at hc
          rcases hc with rfl | rfl | rfl | rfl | rfl | rfl <;> simp
        · intro client user hc
          simp only [List.cons_append, List.nil_append, List.mem_cons, List.mem_singleton,
            List.not_mem_nil, or_false, Call.getParts.injEq, reduceCtorEq, false_or,
            or_false] at hc
          exact ⟨hc.2, worker, rfl, hc.1.symm⟩

/-- C8: the code under test. With `LazyStreamBots` and `DisableStreamBots` both set and one
bot token registered, a GET of scenario B installs the token list in the upload pool, takes
its token, logs the bot in and fetches the parts with the bot's client and the bot user id
`111` as acting user; the user credential is not used. -/
theorem GetFileStream_lazy_ignores_disable :
    lazyDisabledEnv.config.DisableStreamBots = true ∧
      (GetFileStream lazyDisabledEnv (sampleRequest "GET" "")).calls =
        [Call.WorkersSet ["111:abc"] 100, Call.WorkersNext 100, Call.BotLogin "111:abc",
          Call.RunWithAuth (.bot "111:abc") "111:abc", Call.getParts (.bot "111:abc") "111",
          Call.rangedParts 0 9, Call.NewLinearReader (.bot "111:abc") 10, Call.CopyN 10] ∧
      Call.UserLogin "session-7" ∉ (GetFileStream lazyDisabledEnv (sampleRequest "GET" "")).calls := by
  decide

/-! ## `CopyFile` -/

/-- What `findChannelMessage` finds is the message of the first new-channel-message
update: only other updates come before it. -/
theorem findChannelMessage_some (updates : List tg.UpdateClass) (msg : tg.Message)
    (h : findChannelMessage updates = .ok (some msg)) :
    ∃ before after, updates = before ++ .UpdateNewChannelMessage (.Message msg) :: after ∧
      ∀ u ∈ before, u = tg.UpdateClass.other := by
  induction updates with
  | nil => simp [findChannelMessage] at h
  | cons u rest ih =>
    cases u with
    | other =>
      simp only [findChannelMessage] at h
      obtain ⟨before, after, hrest, hb⟩ := ih h
      refine ⟨.other :: before, after, by rw [hrest]; rfl, ?_⟩
      intro u hu
      rcases List.mem_cons.mp hu with rfl | hu
      · rfl
      · exact hb u hu
    | UpdateNewChannelMessage m =>
      cases m with
      | Message m' =>
        simp only [findChannelMessage, Step.ok.injEq, Option.some.injEq] at h
        subst h
        exact ⟨[], rest, rfl, by simp⟩
      | MessageEmpty => simp [findChannelMessage] at h
      | MessageService => simp [findChannelMessage] at h

/-- An iteration that yields a part has sent the document of a document message and read
the part id off the first new-channel-message update of the answer. -/
theorem copyMessage_ok {FileOut : Type} (env : CopyEnv FileOut) (channel : Channel) (i : Nat)
    (message : tg.MessageClass) (part : models.Part)
    (h : copyMessage env channel i message = .ok part) :
    ∃ item docID docHash updates msg,
      message = .Message item ∧
      item.Media = .MessageMediaDocument (.Document docID docHash) ∧
      env.MessagesSendMedia i
        { Silent := true, PeerChannelID := channel.ChannelID,
          PeerAccessHash := channel.AccessHash, MediaID := docID, MediaAccessHash := docHash,
          RandomID := env.RandInt64 i } = .ok (.Updates updates) ∧
      findChannelMessage updates = .ok (some msg) ∧ part = { ID := msg.ID } := by
  unfold copyMessage at h
  cases message with
  | MessageEmpty => simp at h
  | MessageService => simp at h
  | Message item =>
    simp only [] at h
    cases hmedia : item.Media with
    | other => simp [hmedia] at h
    | MessageMediaDocument doc =>
      cases doc with
      | DocumentEmpty => simp [hmedia] at h
      | Document docID docHash =>
        simp only [hmedia] at h
        cases hsend : env.MessagesSendMedia i
            { Silent := true, PeerChannelID := channel.ChannelID,
              PeerAccessHash := channel.AccessHash, MediaID := docID,
              MediaAccessHash := docHash, RandomID := env.RandInt64 i } with
        | error e => simp [hsend] at h
        | ok res =>
          cases res with
          | other => simp [hsend] at h
          | Updates updates =>
            simp only [hsend] at h
            cases hfind : findChannelMessage updates with
            | error e => simp [hfind] at h
            | panic => simp [hfind] at h
            | ok found =>
              cases found with
              | none => simp [hfind] at h
              | some msg =>
                simp only [hfind, Step.ok.injEq] at h
                exact ⟨item, docID, docHash, updates, msg, rfl, hmedia, hsend, hfind, h.symm⟩

/-- A loop that ends normally has appended one part per source message, in order, each the
result of the iteration of its index. -/
theorem copyMessages_ok {FileOut : Type} (env : CopyEnv FileOut) (channel : Channel)
    (messages : List tg.MessageClass) :
    ∀ (i : Nat) (acc newIds : List models.Part),
      copyMessages env channel i messages acc = .ok newIds →
      ∃ ids, newIds = acc ++ ids ∧ ids.length = messages.length ∧
        ∀ j message, messages[j]? = some message →
          ∃ part, ids[j]? = some part ∧ copyMessage env channel (i + j) message = .ok part := by
  induction messages with
  | nil =>
    intro i acc newIds h
    simp only [copyMessages, Step.ok.injEq] at h
    exact ⟨[], by simp [h], rfl, by simp⟩
  | cons m rest ih =>
    intro i acc newIds h
    simp only [copyMessages] at h
    cases hm : copyMessage env channel i m with
    | error e => simp [hm] at h
    | panic => simp [hm] at h
    | ok part =>
      simp only [hm] at h
      obtain ⟨ids, hids, hlen, hall⟩ := ih (i + 1) (acc ++ [part]) newIds h
      refine ⟨part :: ids, by simp [hids], by simp [hlen], ?_⟩
      intro j message hj
      cases j with
      | zero =>
        simp only [List.getElem?_cons_zero, Option.some.injEq] at hj
        subst hj
        exact ⟨part, by simp, hm⟩
      | succ j =>
        simp only [List.getElem?_cons_succ] at hj
        obtain ⟨p, hp, hc⟩ := hall j message hj
        refine ⟨p, by simp [hp], ?_⟩
        have : i + (j + 1) = i + 1 + j := by omega
        rw [this]
        exact hc

/-- C9. When `CopyFile` succeeds for the payload it bound and the source row `file` it
found, the row it inserted has the payload's name, the source's size, type, mime type and
channel, the id of the first folder row of `create_directories` for the destination as
parent, the caller as user, status `active`, starred false, and one part per source message
in order: the `i`-th is the id of the message of the first new-channel-message update in
the answer to the send of the `i`-th message's document. The value returned is the file out
of the stored row. -/
theorem CopyFile_inserted_row {FileOut : Type} (env : CopyEnv FileOut) (payload : schemas.Copy)
    (file : models.File) (others : List models.File) (row : models.File) (out : FileOut)
    (hbind : env.ShouldBindJSON = .ok payload)
    (hfind : env.dbFind payload.ID = file :: others)
    (h : CopyFile env = .done row out) :
    ∃ parts channelID messages channel dest dests newIds,
      file.Parts = some parts ∧ file.ChannelID = some channelID ∧
      env.getTGMessages parts channelID (FormatInt env.getUserAuth.1) = .ok messages ∧
      env.GetChannelById channelID (FormatInt env.getUserAuth.1) = .ok channel ∧
      env.createDirectories env.getUserAuth.1 payload.Destination = .ok (dest :: dests) ∧
      row.Name = payload.Name ∧ row.Size = file.Size ∧ row.Type_ = file.Type_ ∧
      row.MimeType = file.MimeType ∧ row.ChannelID = file.ChannelID ∧
      row.ParentID = dest.ID ∧ row.UserID = env.getUserAuth.1 ∧ row.Status = "active" ∧
      row.Starred = some false ∧ row.Parts = some newIds ∧
      newIds.length = messages.length ∧
      (∀ i message, messages[i]? = some message →
        ∃ item docID docHash updates before msg after,
          message = .Message item ∧
          item.Media = .MessageMediaDocument (.Document docID docHash) ∧
          env.MessagesSendMedia i
            { Silent := true, PeerChannelID := channel.ChannelID,
              PeerAccessHash := channel.AccessHash, MediaID := docID,
              MediaAccessHash := docHash, RandomID := env.RandInt64 i } =
            .ok (.Updates updates) ∧
          updates = before ++ .UpdateNewChannelMessage (.Message msg) :: after ∧
          (∀ u ∈ before, u = tg.UpdateClass.other) ∧
          newIds[i]? = some { ID := msg.ID }) ∧
      ∃ stored, env.dbCreate row = .ok stored ∧ out = env.MapFileToFileOut stored := by
  unfold CopyFile at h
  simp only [hbind, hfind] at h
  cases hrun : env.RunWithAuth with
  | some e => simp [hrun] at h
  | none =>
    simp only [hrun] at h
    unfold copyCallback at h
    cases hparts : file.Parts with
    | none => simp [hparts] at h
    | some parts =>
      cases hch : file.ChannelID with
      | none => simp [hparts, hch] at h
      | some channelID =>
        simp only [hparts, hch] at h
        cases hmsgs : env.getTGMessages parts channelID (FormatInt env.getUserAuth.1) with
        | error e => simp [hmsgs] at h
        | ok messages =>
          simp only [hmsgs] at h
          cases hchan : env.GetChannelById channelID (FormatInt env.getUserAuth.1) with
          | error e => simp [hchan] at h
          | ok channel =>
            simp only [hchan] at h
            cases hloop : copyMessages env channel 0 messages [] with
            | error e => simp [hloop] at h
            | panic => simp [hloop] at h
            | ok newIds =>
              simp only [hloop] at h
              cases hdir : env.createDirectories env.getUserAuth.1 payload.Destination with
              | error e => simp [hdir] at h
              | ok dirs =>
                cases dirs with
                | nil => simp [hdir] at h
                | cons dest dests =>
                  simp only [hdir] at h
                  cases hcreate : env.dbCreate
                      (copyRow payload env.getUserAuth.1 file dest newIds) with
                  | error e => simp [hcreate] at h
                  | ok stored =>
                    simp only [hcreate, CopyResult.done.injEq] at h
                    obtain ⟨hrow, hout⟩ := h
                    subst hrow
                    obtain ⟨ids, hids, hlen, hall⟩ := copyMessages_ok env channel messages 0 []
                      newIds hloop
                    simp only [List.nil_append] at hids
                    subst hids
                    refine ⟨parts, channelID, messages, channel, dest, dests, newIds, rfl,
                      rfl, hmsgs, hchan, rfl, rfl, rfl, rfl, rfl, hch.symm ▸ rfl, rfl, rfl,
                      rfl, rfl, rfl, hlen, ?_, stored, hcreate, hout.symm⟩
                    intro i message hi
                    obtain ⟨part, hpart, hcopy⟩ := hall i message hi
                    rw [Nat.zero_add] at hcopy
                    obtain ⟨item, docID, docHash, updates, msg, hmsg, hmedia, hsend, hfound,
                      hid⟩ := copyMessage_ok env channel i message part hcopy
                    obtain ⟨before, after, hupd, hbefore⟩ :=
                      findChannelMessage_some updates msg hfound
                    exact ⟨item, docID, docHash, updates, before, msg, after, hmsg, hmedia,
                      hsend, hupd, hbefore, hid ▸ hpart⟩

/-- Scenario D: parts `[1, 2, 3]` on channel 100 copied to `/a/b` as `x` give the parts
`[11, 12, 13]` on channel 100, with size and mime type unchanged. -/
theorem CopyFile_inserted_row_witness :
    ∃ row out, CopyFile scenarioD = .done row out ∧
      row.Name = "x" ∧ row.Size = 2500000 ∧ row.MimeType = "video/mp4" ∧
      row.ChannelID = some 100 ∧ row.ParentID = "dir-b" ∧ row.UserID = 7 ∧
      row.Parts = some [⟨11⟩, ⟨12⟩, ⟨13⟩] := by
  have hrun : CopyFile scenarioD = .done
      (copyRow { ID := "f1", Name := "x", Destination := "/a/b" } 7
        (sampleFile 2500000 [⟨1⟩, ⟨2⟩, ⟨3⟩]) sampleFolder [⟨11⟩, ⟨12⟩, ⟨13⟩])
      { copyRow { ID := "f1", Name := "x", Destination := "/a/b" } 7
          (sampleFile 2500000 [⟨1⟩, ⟨2⟩, ⟨3⟩]) sampleFolder [⟨11⟩, ⟨12⟩, ⟨13⟩] with
        ID := "f2" } := by
    decide
  obtain ⟨parts, channelID, messages, channel, dest, dests, newIds, _, _, _, _, _, hname,
    hsize, _, hmime, hchannel, _, huser, _, _, _, _, _, _⟩ :=
    CopyFile_inserted_row scenarioD { ID := "f1", Name := "x", Destination := "/a/b" }
      (sampleFile 2500000 [⟨1⟩, ⟨2⟩, ⟨3⟩]) [] _ _ rfl rfl hrun
  exact ⟨_, _, hrun, hname, hsize, hmime, hchannel, rfl, huser, rfl⟩

/-! ## `UploadFile` -/

/-- A callback that ends normally has sent the uploaded file to the channel, read a
non-zero id off the message of the first new-channel-message update, and stored the row
built from it. -/
theorem uploadCallback_ok {UploadPartOut : Type} (env : UploadEnv UploadPartOut)
    (client : telegram.Client) (channelId : Int) (channelUser fileName : String)
    (uploadQuery : schemas.UploadQuery) (userId : Int) (row stored : models.Upload)
    (h : uploadCallback env client channelId channelUser fileName uploadQuery userId =
      .ok (row, stored)) :
    ∃ channel upload updates message,
      env.GetChannelById client channelId channelUser = .ok channel ∧
      env.Upload client fileName env.Body env.ContentLength = .ok upload ∧
      env.Media client channel fileName upload = .ok (.Updates updates) ∧
      findChannelMessage updates = .ok (some message) ∧ message.ID ≠ 0 ∧
      row = { Name := fileName, UploadId := env.uploadId, PartId := message.ID,
              ChannelID := channelId, Size := env.ContentLength, PartNo := uploadQuery.PartNo,
              TotalParts := uploadQuery.TotalParts, UserId := userId } ∧
      env.dbCreate row = .ok stored := by
  unfold uploadCallback at h
  cases hchan : env.GetChannelById client channelId channelUser with
  | error e => simp [hchan] at h
  | ok channel =>
    simp only [hchan] at h
    cases hup : env.Upload client fileName env.Body env.ContentLength with
    | error e => simp [hup] at h
    | ok upload =>
      simp only [hup] at h
      cases hmedia : env.Media client channel fileName upload with
      | error e => simp [hmedia] at h
      | ok res =>
        cases res with
        | other => simp [hmedia] at h
        | Updates updates =>
          simp only [hmedia] at h
          cases hfind : findChannelMessage updates with
          | error e => simp [hfind] at h
          | panic => simp [hfind] at h
          | ok found =>
            cases found with
            | none => simp [hfind] at h
            | some message =>
              simp only [hfind] at h
              by_cases hid : message.ID = 0
              · simp [hid] at h
              · simp only [hid, if_false] at h
                cases hcreate : env.dbCreate
                    { Name := fileName, UploadId := env.uploadId, PartId := message.ID,
                      ChannelID := channelId, Size := env.ContentLength,
                      PartNo := uploadQuery.PartNo, TotalParts := uploadQuery.TotalParts,
                      UserId := userId } with
                | error e => simp [hcreate] at h
                | ok stored' =>
                  simp only [hcreate, Step.ok.injEq, Prod.mk.injEq] at h
                  obtain ⟨hrow, hstored⟩ := h
                  subst hrow hstored
                  exact ⟨channel, upload, updates, message, rfl, rfl, hmedia, hfind, hid, rfl,
                    hcreate⟩

/-- C10. When `UploadFile` succeeds it has stored exactly one row: its upload id is the
path parameter, its part number and total are the query's values, 1 for a key the query
omits, its part id is the non-zero id of the message of the first new-channel-message
update in the answer to the send, its channel is the query's when that is given and not
zero and the caller's default channel otherwise, its size is the content length, its name
the query's file name and its user the caller. The value returned is the part out of the
stored row. -/
theorem UploadFile_inserted_row {UploadPartOut : Type} (env : UploadEnv UploadPartOut)
    (out : UploadPartOut) (h : (UploadFile env).reply = .ok out) :
    ∃ row stored client channelUser channel upload updates before message after,
      (UploadFile env).inserted = [row] ∧
      row.UploadId = env.uploadId ∧
      row.PartNo = env.query.partNo.getD 1 ∧
      row.TotalParts = env.query.totalParts.getD 1 ∧
      env.Media client channel row.Name upload = .ok (.Updates updates) ∧
      updates = before ++ .UpdateNewChannelMessage (.Message message) :: after ∧
      (∀ u ∈ before, u = tg.UpdateClass.other) ∧
      row.PartId = message.ID ∧ message.ID ≠ 0 ∧
      (env.query.channelId.getD 0 ≠ 0 → row.ChannelID = env.query.channelId.getD 0) ∧
      (env.query.channelId.getD 0 = 0 →
        env.GetDefaultChannel env.getUserAuth.1 = .ok row.ChannelID) ∧
      env.GetChannelById client row.ChannelID channelUser = .ok channel ∧
      row.Size = env.ContentLength ∧
      env.query.fileName = some row.Name ∧
      row.UserId = env.getUserAuth.1 ∧
      env.dbCreate row = .ok stored ∧ out = env.MapUploadSchema stored := by
  unfold UploadFile at h ⊢
  unfold ShouldBindQuery at h ⊢
  cases hbind : env.query.bindError with
  | some e => simp [hbind] at h
  | none =>
    simp only [hbind] at h ⊢
    by_cases hname : env.query.fileName.getD "" = ""
    · simp [hname] at h
    · simp only [hname, if_false] at h ⊢
      cases hchannel : (if env.query.channelId.getD 0 = 0 then
          env.GetDefaultChannel env.getUserAuth.1
        else Except.ok (env.query.channelId.getD 0)) with
      | error e => simp [hchannel] at h
      | ok channelId =>
        simp only [hchannel] at h ⊢
        cases htokens : env.GetBotsToken env.getUserAuth.1 channelId with
        | error e => simp [htokens] at h
        | ok tokens =>
          simp only [htokens] at h ⊢
          cases hcred : uploadCredential env tokens channelId env.getUserAuth.1
              env.getUserAuth.2 with
          | none => simp [hcred] at h
          | some cred =>
            obtain ⟨client, token, channelUser⟩ := cred
            simp only [hcred] at h ⊢
            cases hrun : env.RunWithAuth client token with
            | some e => simp [hrun] at h
            | none =>
              simp only [hrun] at h ⊢
              cases hcb : uploadCallback env client channelId channelUser
                  (env.query.fileName.getD "")
                  { Filename := env.query.fileName.getD "", PartNo := env.query.partNo.getD 1,
                    TotalParts := env.query.totalParts.getD 1,
                    ChannelID := env.query.channelId.getD 0 } env.getUserAuth.1 with
              | error e => simp [hcb] at h
              | panic => simp [hcb] at h
              | ok p =>
                obtain ⟨row, stored⟩ := p
                simp only [hcb, Reply.ok.injEq] at h ⊢
                obtain ⟨channel, upload, updates, message, hchan, _, hmedia, hfind, hid, hrow,
                  hcreate⟩ := uploadCallback_ok env client channelId channelUser _ _ _ row
                    stored hcb
                obtain ⟨before, after, hupd, hbefore⟩ :=
                  findChannelMessage_some updates message hfind
                have hfile : env.query.fileName = some row.Name := by
                  rw [hrow]
                  cases hq : env.query.fileName with
                  | none => simp [hq] at hname
                  | some name => rfl
                refine ⟨row, stored, client, channelUser, channel, upload, updates, before,
                  message, after, rfl, ?_, ?_, ?_, ?_, hupd, hbefore, ?_, hid, ?_, ?_, ?_, ?_,
                  hfile, ?_, hcreate, h.symm⟩
                · rw [hrow]
                · rw [hrow]
                · rw [hrow]
                · rw [hrow]
                  exact hmedia
                · rw [hrow]
                · intro hne
                  rw [if_neg hne] at hchannel
                  rw [hrow]
                  exact (Except.ok.inj hchannel).symm
                · intro hz
                  rw [if_pos hz] at hchannel
                  rw [hrow]
                  exact hchannel
                · rw [hrow]
                  exact hchan
                · rw [hrow]
                · rw [hrow]

/-- Scenario C: upload id `u1`, part 1 of 2, answered with message 4711. -/
theorem UploadFile_inserted_row_witness :
    (UploadFile scenarioC).reply = .ok scenarioCRow ∧
      ∃ row, (UploadFile scenarioC).inserted = [row] ∧ row.UploadId = "u1" ∧
        row.PartNo = 1 ∧ row.TotalParts = 2 ∧ row.PartId = 4711 := by
  have hrun : (UploadFile scenarioC).reply = .ok scenarioCRow := by decide
  obtain ⟨row, _, _, _, _, _, _, _, _, _, hins, hid, hno, htotal, _⟩ :=
    UploadFile_inserted_row scenarioC scenarioCRow hrun
  have hrows : (UploadFile scenarioC).inserted = [scenarioCRow] := by decide
  have hrow : row = scenarioCRow := by
    rw [hins] at hrows
    exact List.head_eq_of_cons_eq hrows
  refine ⟨hrun, row, hins, hid, hno, htotal, ?_⟩
  rw [hrow]
  rfl

/-! ## Unknown files -/

/-- `CopyFile` for a source id without a row: `res[0]` is out of range and the handler
panics. -/
theorem CopyFile_missing_row {FileOut : Type} (env : CopyEnv FileOut) (payload : schemas.Copy)
    (hbind : env.ShouldBindJSON = .ok payload) (hfind : env.dbFind payload.ID = []) :
    CopyFile env = .panic := by
  simp [CopyFile, hbind, hfind]

/-- C11, as stated, fails: the file id `missing` is neither in the cache nor in the index of
scenario B, and `GetFileStream` answers 400 with the message `file not found`, not 404. -/
theorem GetFileStream_unknown_file_is_400 :
    scenarioB.cacheGet "files:missing" = none ∧ scenarioB.dbFind "missing" = [] ∧
      (GetFileStream scenarioB { sampleRequest "GET" "" with fileID := "missing" }).w.status =
        400 ∧
      (GetFileStream scenarioB { sampleRequest "GET" "" with fileID := "missing" }).errorReply =
        some (400, "file not found") ∧
      ¬ (GetFileStream scenarioB { sampleRequest "GET" "" with fileID := "missing" }).w.status =
        404 :=
  ⟨rfl, rfl, by decide, by decide, by decide⟩

/-- C11, amended. A request to `GetFileStream` with a valid session hash for a file id that
is neither in the cache nor in the index is answered through `http.Error` with status 400
and the message `file not found`, before any header is set and before any worker or
platform call. -/
theorem GetFileStream_unknown_file (env : StreamEnv) (req : Request) (session : Session)
    (hhash : req.hash ≠ "") (hsession : env.GetSessionByHash req.hash = .ok session)
    (hcache : env.cacheGet ("files:" ++ req.fileID) = none)
    (hrows : env.dbFind req.fileID = []) :
    (GetFileStream env req).w.status = 400 ∧
      (GetFileStream env req).errorReply = some (400, "file not found") ∧
      (GetFileStream env req).w.body = utf8 "file not found\n" ∧
      headerNames (GetFileStream env req).w.header =
        ["Content-Type", "X-Content-Type-Options"] ∧
      (GetFileStream env req).calls = [] ∧
      (GetFileStream env req).panicked = false := by
  have hload : loadFile env req.fileID = .error "file not found" := by
    simp [loadFile, hcache, GetFileByID, hrows]
  have hres : GetFileStream env req =
      StreamResult.fail ResponseWriter.new [] "file not found" 400 := by
    simp [GetFileStream, prepareResponse, hhash, hsession, hload]
  rw [hres]
  exact ⟨httpError_status _ _ _ (by decide) rfl, rfl, rfl, rfl, rfl, rfl⟩

/-- The file id `missing` requested from scenario B. -/
theorem GetFileStream_unknown_file_witness :
    (GetFileStream scenarioB { sampleRequest "HEAD" "" with fileID := "missing" }).w.status =
        400 ∧
      (GetFileStream scenarioB { sampleRequest "HEAD" "" with fileID := "missing" }).errorReply =
        some (400, "file not found") :=
  have h := GetFileStream_unknown_file scenarioB
    { sampleRequest "HEAD" "" with fileID := "missing" } { UserId := 7, Session := "session-7" }
    (by decide) rfl rfl rfl
  ⟨h.1, h.2.1⟩

/-! ## Upstream failures -/

/-- What the callback of `UploadFile` does with the batch the send returned: without a
new-channel-message update, or with one whose message is not a `*tg.Message`, it panics;
with a message of id 0 it returns the error `failed to upload part`; otherwise it creates
the row, and returns that error when the insert fails. -/
theorem uploadCallback_after_send {UploadPartOut : Type} (env : UploadEnv UploadPartOut)
    (client : telegram.Client) (channelId : Int) (channelUser fileName : String)
    (uploadQuery : schemas.UploadQuery) (userId : Int) (channel : Channel) (upload : Int)
    (updates : List tg.UpdateClass)
    (hchan : env.GetChannelById client channelId channelUser = .ok channel)
    (hup : env.Upload client fileName env.Body env.ContentLength = .ok upload)
    (hmedia : env.Media client channel fileName upload = .ok (.Updates updates)) :
    (findChannelMessage updates = .ok none →
        uploadCallback env client channelId channelUser fileName uploadQuery userId = .panic) ∧
      (findChannelMessage updates = .panic →
        uploadCallback env client channelId channelUser fileName uploadQuery userId = .panic) ∧
      (∀ message, findChannelMessage updates = .ok (some message) → message.ID = 0 →
        uploadCallback env client channelId channelUser fileName uploadQuery userId =
          .error "failed to upload part") ∧
      (∀ message e, findChannelMessage updates = .ok (some message) → message.ID ≠ 0 →
        env.dbCreate
          { Name := fileName, UploadId := env.uploadId, PartId := message.ID,
            ChannelID := channelId, Size := env.ContentLength, PartNo := uploadQuery.PartNo,
            TotalParts := uploadQuery.TotalParts, UserId := userId } = .error e →
        uploadCallback env client channelId channelUser fileName uploadQuery userId =
          .error "failed to upload part") ∧
      (∀ message stored, findChannelMessage updates = .ok (some message) → message.ID ≠ 0 →
        env.dbCreate
          { Name := fileName, UploadId := env.uploadId, PartId := message.ID,
            ChannelID := channelId, Size := env.ContentLength, PartNo := uploadQuery.PartNo,
            TotalParts := uploadQuery.TotalParts, UserId := userId } = .ok stored →
        uploadCallback env client channelId channelUser fileName uploadQuery userId =
          .ok ({ Name := fileName, UploadId := env.uploadId, PartId := message.ID,
                 ChannelID := channelId, Size := env.ContentLength,
                 PartNo := uploadQuery.PartNo, TotalParts := uploadQuery.TotalParts,
                 UserId := userId }, stored)) := by
  refine ⟨?_, ?_, ?_, ?_, ?_⟩
  · intro hf
    simp [uploadCallback, hchan, hup, hmedia, hf]
  · intro hf
    simp [uploadCallback, hchan, hup, hmedia, hf]
  · intro message hf hid
    simp [uploadCallback, hchan, hup, hmedia, hf, hid]
  · intro message e hf hid hc
    simp [uploadCallback, hchan, hup, hmedia, hf, hid, hc]
  · intro message stored hf hid hc
    simp [uploadCallback, hchan, hup, hmedia, hf, hid, hc]

/-- C13: the code under test. When the platform answers the send of scenario C with a batch
that holds no new channel message, the loop leaves `message` nil and `message.ID` panics: the
handler returns neither a part nor the error `failed to upload part`, and stores no row.
A message of id 0 does get that error with status 500. -/
theorem UploadFile_empty_batch_panics :
    findChannelMessage [tg.UpdateClass.other] = .ok none ∧
      (UploadFile emptyBatchEnv).reply = .panic ∧
      (UploadFile emptyBatchEnv).inserted = [] ∧
      (UploadFile zeroIdEnv).reply = .appError 500 "failed to upload part" ∧
      (UploadFile zeroIdEnv).inserted = [] := by
  decide

end Teldrive
